import Mathlib

/-!
Shallow embedding of the Elliott-wave analysis core of
src/elliott_wave_analyzer.py, together with theorems settling the claims
about it.

Modelling conventions:

* Python/numpy floats are modelled as exact rationals (ℚ); decimal float
  literals of the source (0.236, 0.9, ...) are taken as exact decimals.
* numpy arrays and Python lists are Lean lists; an in-bounds access a[i]
  becomes List.getD with an arbitrary default (theorems about concrete
  runs only exercise in-bounds accesses, mirroring the source).
* Wave dictionaries keyed by the strings "0".."5", "A".."C", "direction",
  "confidence", "fibonacci_levels" become a structure with optional leg
  fields; the collection of waves keyed by strings such as "Impulse_Up_3"
  becomes an association list whose keys (WaveKey) carry the same
  information: kind, direction and the running ordinal.  Python dicts
  preserve insertion order, which the list order models.
* The two external scipy.signal.find_peaks calls inside find_pivot_points
  are modelled by two oracle parameters (raw_peaks, raw_valleys): every
  theorem either quantifies over them or instantiates them with the value
  scipy returns on the concrete series at hand (for a monotone or constant
  smoothed series there is no interior local extremum, so both calls
  return the empty index array).  The try/except retry of the source
  (lines 104-125) only re-invokes the same external routine with other
  parameters, so it is covered by the same quantification.
* Rational division is total with q / 0 = 0.  In the source the
  zero-denominator ratio cases produce inf/nan under numpy and every such
  value fails the surrounding interval test; 0 fails the same tests here,
  so the two agree on every branch outcome.
* The NaN-imputation prologue of find_pivot_points is the identity on a
  series without missing values and is omitted: ℚ has no NaN.
* The dead computation of relative_strengths in analyze_wave_structure
  (source lines 264-279) has no effect on the result and is omitted.
-/

/-- Python int() truncates toward zero. -/
def py_int (q : ℚ) : ℤ := if 0 ≤ q then ⌊q⌋ else ⌈q⌉

/-- np.sort on an index array: ascending order. -/
def np_sort (l : List ℕ) : List ℕ := l.insertionSort (· ≤ ·)

/-- np.median: middle element of the ascending sort, or the mean of the two
middle elements for an even count.  (The source only calls it on nonempty
arrays.) -/
def np_median (xs : List ℚ) : ℚ :=
  let s := xs.insertionSort (· ≤ ·)
  let n := s.length
  if n % 2 = 1 then s.getD (n / 2) 0
  else (s.getD (n / 2 - 1) 0 + s.getD (n / 2) 0) / 2

/-- np.argmax over prices[lo : lo+len], as an absolute index; first
occurrence of the maximum wins, like numpy. -/
def argmax_in (prices : List ℚ) (lo len : ℕ) : ℕ :=
  lo + (List.range len).foldl
    (fun best j => if prices.getD (lo + best) 0 < prices.getD (lo + j) 0 then j else best) 0

/-- np.argmin over prices[lo : lo+len], as an absolute index; first
occurrence of the minimum wins, like numpy. -/
def argmin_in (prices : List ℚ) (lo len : ℕ) : ℕ :=
  lo + (List.range len).foldl
    (fun best j => if prices.getD (lo + j) 0 < prices.getD (lo + best) 0 then j else best) 0

/-- np.mean over prices[lo : lo+len]. -/
def window_mean (prices : List ℚ) (lo len : ℕ) : ℚ :=
  ((List.range len).map (fun j => prices.getD (lo + j) 0)).sum / (len : ℚ)

/-- Smoothing window size: max(3, int(10 * (1 - sensitivity))), source line 86. -/
def smoothing_window (sensitivity : ℚ) : ℕ :=
  (max 3 (py_int (10 * (1 - sensitivity)))).toNat

/-- The smoothing pass of find_pivot_points (source lines 85-88): positions
window ≤ i < n - window are replaced by the mean of the surrounding
original prices (the loop reads the original array). -/
def smoothed_prices (prices : List ℚ) (sensitivity : ℚ) : List ℚ :=
  let w := smoothing_window sensitivity
  let n := prices.length
  (List.range n).map (fun i =>
    if w ≤ i ∧ i + w < n then window_mean prices (i - w) (2 * w + 1) else prices.getD i 0)

inductive PivotKind
  | peak
  | valley
deriving DecidableEq

/-- Importance filtering of raw peaks (source lines 128-133): when more than
3 peaks were found, keep those whose smoothed height strictly exceeds
0.8 times the median height. -/
def importance_filter_peaks (prices : List ℚ) (sensitivity : ℚ) (peaks : List ℕ) : List ℕ :=
  let sp := smoothed_prices prices sensitivity
  let m := np_median (peaks.map (fun i => sp.getD i 0))
  peaks.filter (fun i => m * 0.8 < sp.getD i 0)

/-- Importance filtering of raw valleys (source lines 135-140): importance of
a valley is its negated smoothed price. -/
def importance_filter_valleys (prices : List ℚ) (sensitivity : ℚ) (valleys : List ℕ) : List ℕ :=
  let sp := smoothed_prices prices sensitivity
  let m := np_median (valleys.map (fun i => -(sp.getD i 0)))
  valleys.filter (fun i => m * 0.8 < -(sp.getD i 0))

/-- Inner loop of the alternation filter: drop elements whose kind equals the
kind of the last kept pivot (source lines 161-165 / 251-254). -/
def alt_filter : PivotKind → List (ℕ × PivotKind) → List (ℕ × PivotKind)
  | _, [] => []
  | t, x :: xs => if x.2 = t then alt_filter t xs else x :: alt_filter x.2 xs

/-- The alternation filter: the first pivot is always kept, then pivots are
kept exactly when their kind differs from the last kept kind. -/
def alternation_pass : List (ℕ × PivotKind) → List (ℕ × PivotKind)
  | [] => []
  | x :: xs => x :: alt_filter x.2 xs

/-- Kind assigned to a merged index: peak iff it occurs in the peak list
(source: the membership test idx in peaks). -/
def pivot_tag (pk : List ℕ) (i : ℕ) : PivotKind :=
  if i ∈ pk then PivotKind.peak else PivotKind.valley

/-- Merge peaks and valleys by sorted index, tag each index by membership in
the peak list, and run the alternation filter.  This is the common routine
of find_pivot_points (lines 142-169) and analyze_wave_structure
(lines 228-262). -/
def merged_alternation (pk vl : List ℕ) : List (ℕ × PivotKind) :=
  alternation_pass ((np_sort (pk ++ vl)).map (fun i => (i, pivot_tag pk i)))

/-- One segment of the coarse fallback (source lines 179-187): take the
segment's first maximum as a peak candidate and first minimum as a valley
candidate, deduplicating within each side only. -/
def coarse_step (prices : List ℚ) (seg : ℕ) (acc : List ℕ × List ℕ) (i : ℕ) :
    List ℕ × List ℕ :=
  let mx := argmax_in prices (i * seg) seg
  let mn := argmin_in prices (i * seg) seg
  ((if mx ∈ acc.1 then acc.1 else acc.1 ++ [mx]),
   (if mn ∈ acc.2 then acc.2 else acc.2 ++ [mn]))

/-- The coarse segment fallback of find_pivot_points (source lines 172-190):
10 equal segments, segments 1..9 each contribute their local max and min.
(For a series shorter than 10 the source raises on an empty segment; this
total model is only used at length ≥ 10.) -/
def coarse_pivots (prices : List ℚ) : List ℕ × List ℕ :=
  let seg := prices.length / 10
  (List.range' 1 9).foldl (coarse_step prices seg) ([], [])

/-- Splitting the alternation-filtered merged pivots back into peak and
valley index lists (source lines 167-169). -/
def alternation_projections (pk vl : List ℕ) : List ℕ × List ℕ :=
  (((merged_alternation pk vl).filter (fun x => x.2 = PivotKind.peak)).map Prod.fst,
   ((merged_alternation pk vl).filter (fun x => x.2 = PivotKind.valley)).map Prod.fst)

/-- find_pivot_points before its final fallback test: importance filtering of
the raw extrema followed by the alternation filter (run only when both
filtered sides are nonempty).  raw_peaks / raw_valleys are the results of
the external scipy find_peaks calls. -/
def pre_fallback (prices : List ℚ) (sensitivity : ℚ) (raw_peaks raw_valleys : List ℕ) :
    List ℕ × List ℕ :=
  let peaks1 :=
    if 3 < raw_peaks.length then importance_filter_peaks prices sensitivity raw_peaks
    else raw_peaks
  let valleys1 :=
    if 3 < raw_valleys.length then importance_filter_valleys prices sensitivity raw_valleys
    else raw_valleys
  if 0 < peaks1.length ∧ 0 < valleys1.length then alternation_projections peaks1 valleys1
  else (peaks1, valleys1)

/-- find_pivot_points (source lines 55-192): if either side is empty after
filtering and alternation, fall back to the coarse segment method. -/
def find_pivot_points (prices : List ℚ) (sensitivity : ℚ) (raw_peaks raw_valleys : List ℕ) :
    List ℕ × List ℕ :=
  let pv := pre_fallback prices sensitivity raw_peaks raw_valleys
  if pv.1 = [] ∨ pv.2 = [] then coarse_pivots prices else pv

inductive Dir
  | up
  | down
deriving DecidableEq

inductive WKind
  | impulse
  | corrective
deriving DecidableEq

/-- A wave-collection key such as "Impulse_Up_3": kind, direction and the
running discovery ordinal. -/
structure WaveKey where
  kind : WKind
  dir : Dir
  ord : ℕ
deriving DecidableEq

structure WavePoint where
  idx : ℕ
  price : ℚ
deriving DecidableEq

/-- A wave dictionary: optional labelled legs "0".."5" / "A".."C", plus
direction, confidence and the Fibonacci level table.  The source always
stores a direction in the waves it builds, so direction is a total field;
confidence and fibonacci_levels are present only when set. -/
structure WaveData where
  p0 : Option WavePoint := none
  p1 : Option WavePoint := none
  p2 : Option WavePoint := none
  p3 : Option WavePoint := none
  p4 : Option WavePoint := none
  p5 : Option WavePoint := none
  pA : Option WavePoint := none
  pB : Option WavePoint := none
  pC : Option WavePoint := none
  direction : Dir
  confidence : Option ℚ := none
  fib_levels : Option (List (ℚ × ℚ)) := none
deriving DecidableEq

abbrev WaveList := List (WaveKey × WaveData)

/-- The private _calculate_fibonacci_levels (source lines 420-445): eight
ratio/price pairs projected from the start price; the 1.0 entry is the end
price itself. -/
def calculate_fibonacci_levels (start_price end_price : ℚ) (d : Dir) : List (ℚ × ℚ) :=
  let r := |end_price - start_price|
  match d with
  | .up =>
    [(0.236, start_price + 0.236 * r), (0.382, start_price + 0.382 * r),
     (0.5, start_price + 0.5 * r), (0.618, start_price + 0.618 * r),
     (0.786, start_price + 0.786 * r), (1.0, end_price),
     (1.272, start_price + 1.272 * r), (1.618, start_price + 1.618 * r)]
  | .down =>
    [(0.236, start_price - 0.236 * r), (0.382, start_price - 0.382 * r),
     (0.5, start_price - 0.5 * r), (0.618, start_price - 0.618 * r),
     (0.786, start_price - 0.786 * r), (1.0, end_price),
     (1.272, start_price - 1.272 * r), (1.618, start_price - 1.618 * r)]

/-- The source function _verify_impulse_wave_fibonacci (source lines 447-512).  Requires all six
legs; then, per direction, the four sequential early-return rules of the
source.  A zero-length leg 1 makes the retracement quotient 0 here and
inf/nan in numpy; both fail the interval test identically. -/
def verify_impulse_wave_fibonacci (wave : WaveData) : Bool :=
  match wave.p0, wave.p1, wave.p2, wave.p3, wave.p4, wave.p5 with
  | some w0, some w1, some w2, some w3, some w4, some _w5 =>
    match wave.direction with
    | .up =>
      if w2.price < w0.price then false
      else if w3.price - w2.price < 0.9 * (w1.price - w0.price) then false
      else if w4.price ≤ w1.price then false
      else if ¬ (0.236 ≤ (w1.price - w2.price) / (w1.price - w0.price) ∧
                 (w1.price - w2.price) / (w1.price - w0.price) ≤ 0.886) then false
      else true
    | .down =>
      if w0.price < w2.price then false
      else if w2.price - w3.price < 0.9 * (w0.price - w1.price) then false
      else if w1.price ≤ w4.price then false
      else if ¬ (0.236 ≤ (w2.price - w1.price) / (w0.price - w1.price) ∧
                 (w2.price - w1.price) / (w0.price - w1.price) ≤ 0.886) then false
      else true
  | _, _, _, _, _, _ => false

/-- The source function _verify_corrective_wave_fibonacci (source lines 514-569). -/
def verify_corrective_wave_fibonacci (wave : WaveData) : Bool :=
  match wave.p0, wave.pA, wave.pB, wave.pC with
  | some w0, some wA, some wB, some wC =>
    match wave.direction with
    | .down =>
      if w0.price < wB.price then false
      else if ¬ (0.236 ≤ (wB.price - wA.price) / (w0.price - wA.price) ∧
                 (wB.price - wA.price) / (w0.price - wA.price) ≤ 0.886) then false
      else if ¬ (0.618 ≤ (wB.price - wC.price) / (w0.price - wA.price) ∧
                 (wB.price - wC.price) / (w0.price - wA.price) ≤ 2.618) then false
      else true
    | .up =>
      if wB.price < w0.price then false
      else if ¬ (0.236 ≤ (wA.price - wB.price) / (wA.price - w0.price) ∧
                 (wA.price - wB.price) / (wA.price - w0.price) ≤ 0.886) then false
      else if ¬ (0.618 ≤ (wC.price - wB.price) / (wA.price - w0.price) ∧
                 (wC.price - wB.price) / (wA.price - w0.price) ≤ 2.618) then false
      else true
  | _, _, _, _ => false

/-- The source function _calculate_wave_confidence (source lines 571-666): base 0.5 plus fixed
increments, clamped by max(0.5, min(1.0, c)).  A wave carrying all nine
labelled legs takes the impulse branch, as the source's if/elif does. -/
def calculate_wave_confidence (wave : WaveData) : ℚ :=
  let c : ℚ :=
    match wave.p0, wave.p1, wave.p2, wave.p3, wave.p4, wave.p5 with
    | some w0, some w1, some w2, some w3, some w4, some w5 =>
      match wave.direction with
      | .up =>
        let r1 := w1.price - w0.price
        let r3 := w3.price - w2.price
        let r5 := w5.price - w4.price
        0.5 + (if r1 < r3 ∧ r5 < r3 then (0.15 : ℚ) else 0) +
          (if w1.price < w4.price then (0.1 : ℚ) else 0) +
          (if w0.price < w2.price then (0.05 : ℚ) else 0)
      | .down =>
        let r1 := w0.price - w1.price
        let r3 := w2.price - w3.price
        let r5 := w4.price - w5.price
        0.5 + (if r1 < r3 ∧ r5 < r3 then (0.15 : ℚ) else 0) +
          (if w4.price < w1.price then (0.1 : ℚ) else 0) +
          (if w2.price < w0.price then (0.05 : ℚ) else 0)
    | _, _, _, _, _, _ =>
      match wave.p0, wave.pA, wave.pB, wave.pC with
      | some w0, some wA, some wB, some wC =>
        match wave.direction with
        | .down =>
          let r0A := w0.price - wA.price
          let fibB := (wB.price - wA.price) / r0A
          let fibC := (wB.price - wC.price) / r0A
          0.5 + (if 0.382 ≤ fibB ∧ fibB ≤ 0.786 then (0.1 : ℚ) else 0) +
            (if 0.618 ≤ fibC ∧ fibC ≤ 1.618 then (0.1 : ℚ) else 0)
        | .up =>
          let r0A := wA.price - w0.price
          let fibB := (wA.price - wB.price) / r0A
          let fibC := (wC.price - wB.price) / r0A
          0.5 + (if 0.382 ≤ fibB ∧ fibB ≤ 0.786 then (0.1 : ℚ) else 0) +
            (if 0.618 ≤ fibC ∧ fibC ≤ 1.618 then (0.1 : ℚ) else 0)
      | _, _, _, _ => 0.5
  max 0.5 (min 1 c)

/-- Build an impulse-wave dictionary with legs "0".."5". -/
def impulse_wave_mk (i0 i1 i2 i3 i4 i5 : ℕ) (q0 q1 q2 q3 q4 q5 : ℚ) (d : Dir) : WaveData :=
  { p0 := some ⟨i0, q0⟩, p1 := some ⟨i1, q1⟩, p2 := some ⟨i2, q2⟩,
    p3 := some ⟨i3, q3⟩, p4 := some ⟨i4, q4⟩, p5 := some ⟨i5, q5⟩, direction := d }

/-- Build a corrective-wave dictionary with legs "0","A","B","C". -/
def corrective_wave_mk (i0 iA iB iC : ℕ) (q0 qA qB qC : ℚ) (d : Dir) : WaveData :=
  { p0 := some ⟨i0, q0⟩, pA := some ⟨iA, qA⟩, pB := some ⟨iB, qB⟩,
    pC := some ⟨iC, qC⟩, direction := d }

/-- Up-impulse test of one 6-pivot window (source lines 701-739): kinds
valley-peak-valley-peak-valley-peak, then the six price rules. -/
def impulse_up_window (prices : List ℚ) (pivots : List ℕ) (types : List PivotKind) (s : ℕ) :
    Option WaveData :=
  if types.getD s .peak = .valley ∧ types.getD (s+1) .valley = .peak ∧
     types.getD (s+2) .peak = .valley ∧ types.getD (s+3) .valley = .peak ∧
     types.getD (s+4) .peak = .valley ∧ types.getD (s+5) .valley = .peak then
    let i0 := pivots.getD s 0
    let i1 := pivots.getD (s+1) 0
    let i2 := pivots.getD (s+2) 0
    let i3 := pivots.getD (s+3) 0
    let i4 := pivots.getD (s+4) 0
    let i5 := pivots.getD (s+5) 0
    let q0 := prices.getD i0 0
    let q1 := prices.getD i1 0
    let q2 := prices.getD i2 0
    let q3 := prices.getD i3 0
    let q4 := prices.getD i4 0
    let q5 := prices.getD i5 0
    if q0 < q1 ∧ q2 < q1 ∧ q1 < q3 ∧ q4 < q3 ∧ q2 < q4 ∧ q3 < q5 then
      some (impulse_wave_mk i0 i1 i2 i3 i4 i5 q0 q1 q2 q3 q4 q5 .up)
    else none
  else none

/-- Down-impulse test of one 6-pivot window (source lines 749-787). -/
def impulse_down_window (prices : List ℚ) (pivots : List ℕ) (types : List PivotKind) (s : ℕ) :
    Option WaveData :=
  if types.getD s .valley = .peak ∧ types.getD (s+1) .peak = .valley ∧
     types.getD (s+2) .valley = .peak ∧ types.getD (s+3) .peak = .valley ∧
     types.getD (s+4) .valley = .peak ∧ types.getD (s+5) .peak = .valley then
    let i0 := pivots.getD s 0
    let i1 := pivots.getD (s+1) 0
    let i2 := pivots.getD (s+2) 0
    let i3 := pivots.getD (s+3) 0
    let i4 := pivots.getD (s+4) 0
    let i5 := pivots.getD (s+5) 0
    let q0 := prices.getD i0 0
    let q1 := prices.getD i1 0
    let q2 := prices.getD i2 0
    let q3 := prices.getD i3 0
    let q4 := prices.getD i4 0
    let q5 := prices.getD i5 0
    if q1 < q0 ∧ q1 < q2 ∧ q3 < q1 ∧ q3 < q4 ∧ q4 < q2 ∧ q5 < q3 then
      some (impulse_wave_mk i0 i1 i2 i3 i4 i5 q0 q1 q2 q3 q4 q5 .down)
    else none
  else none

/-- Assign running ordinals to a list of discovered waves, in discovery
order, producing the keyed collection entries. -/
def number_waves (kind : WKind) : ℕ → List (Dir × WaveData) → WaveList
  | _, [] => []
  | n, (d, w) :: rest => (⟨kind, d, n⟩, w) :: number_waves kind (n + 1) rest

/-- identify_impulse_waves (source lines 668-790): windows start at
0 ≤ s ≤ len - lookback with lookback = min(len, 10), and a window is
examined only when s + 8 < len; the up loop runs before the down loop and
the discovery counter is shared. -/
def identify_impulse_waves (prices : List ℚ) (pivots : List ℕ) (types : List PivotKind) :
    WaveList :=
  let L := pivots.length
  let lookback := min L 10
  let idxs := List.range (L - lookback + 1)
  let ups := idxs.filterMap (fun s =>
    if L ≤ s + 8 then none
    else (impulse_up_window prices pivots types s).map (fun w => (Dir.up, w)))
  let downs := idxs.filterMap (fun s =>
    if L ≤ s + 8 then none
    else (impulse_down_window prices pivots types s).map (fun w => (Dir.down, w)))
  number_waves .impulse 0 (ups ++ downs)

/-- Down-corrective test of one 4-pivot window (source lines 825-853). -/
def corrective_down_window (prices : List ℚ) (pivots : List ℕ) (types : List PivotKind)
    (s : ℕ) : Option WaveData :=
  if types.getD s .valley = .peak ∧ types.getD (s+1) .peak = .valley ∧
     types.getD (s+2) .valley = .peak ∧ types.getD (s+3) .peak = .valley then
    let i0 := pivots.getD s 0
    let iA := pivots.getD (s+1) 0
    let iB := pivots.getD (s+2) 0
    let iC := pivots.getD (s+3) 0
    let q0 := prices.getD i0 0
    let qA := prices.getD iA 0
    let qB := prices.getD iB 0
    let qC := prices.getD iC 0
    if qA < q0 ∧ qA < qB ∧ qB < q0 ∧ qC < qA then
      some (corrective_wave_mk i0 iA iB iC q0 qA qB qC .down)
    else none
  else none

/-- Up-corrective test of one 4-pivot window (source lines 863-891). -/
def corrective_up_window (prices : List ℚ) (pivots : List ℕ) (types : List PivotKind)
    (s : ℕ) : Option WaveData :=
  if types.getD s .peak = .valley ∧ types.getD (s+1) .valley = .peak ∧
     types.getD (s+2) .peak = .valley ∧ types.getD (s+3) .valley = .peak then
    let i0 := pivots.getD s 0
    let iA := pivots.getD (s+1) 0
    let iB := pivots.getD (s+2) 0
    let iC := pivots.getD (s+3) 0
    let q0 := prices.getD i0 0
    let qA := prices.getD iA 0
    let qB := prices.getD iB 0
    let qC := prices.getD iC 0
    if q0 < qA ∧ qB < qA ∧ q0 < qB ∧ qA < qC then
      some (corrective_wave_mk i0 iA iB iC q0 qA qB qC .up)
    else none
  else none

/-- identify_corrective_waves (source lines 792-894): the down loop runs
before the up loop, windows need s + 4 < len, counter shared. -/
def identify_corrective_waves (prices : List ℚ) (pivots : List ℕ) (types : List PivotKind) :
    WaveList :=
  let L := pivots.length
  let lookback := min L 10
  let idxs := List.range (L - lookback + 1)
  let downs := idxs.filterMap (fun s =>
    if L ≤ s + 4 then none
    else (corrective_down_window prices pivots types s).map (fun w => (Dir.down, w)))
  let ups := idxs.filterMap (fun s =>
    if L ≤ s + 4 then none
    else (corrective_up_window prices pivots types s).map (fun w => (Dir.up, w)))
  number_waves .corrective 0 (downs ++ ups)

/-- The source function _find_local_minimum (source lines 400-408): clamp the range, return the
clamped start when it does not precede the clamped end, else the first
minimum of the inclusive range. -/
def find_local_minimum (prices : List ℚ) (start_idx end_idx : ℤ) : ℕ :=
  let s : ℕ := (max 0 start_idx).toNat
  let e : ℤ := min ((prices.length : ℤ) - 1) end_idx
  if (s : ℤ) < e then argmin_in prices s ((e - (s : ℤ)).toNat + 1) else s

/-- The source function _find_local_maximum (source lines 410-418). -/
def find_local_maximum (prices : List ℚ) (start_idx end_idx : ℤ) : ℕ :=
  let s : ℕ := (max 0 start_idx).toNat
  let e : ℤ := min ((prices.length : ℤ) - 1) end_idx
  if (s : ℤ) < e then argmax_in prices s ((e - (s : ℤ)).toNat + 1) else s

/-- The source function _create_alternative_wave_structure (source lines 338-398): one synthetic
impulse wave over six equal segments, direction from the overall trend,
legs 2 and 4 refined to the local extremum around legs 1 and 3, fixed
confidence 0.9. -/
def create_alternative_wave_structure (prices : List ℚ) : WaveList :=
  let n := prices.length
  let step := n / 6
  let h : ℤ := ((step / 2 : ℕ) : ℤ)
  if prices.getD 0 0 < prices.getLastD 0 then
    let i1 := min (n - 1) step
    let i3 := min (n - 1) (3 * step)
    let i5 := min (n - 1) (5 * step)
    let i2 := find_local_minimum prices ((i1 : ℤ) - h) ((i1 : ℤ) + h)
    let i4 := find_local_minimum prices ((i3 : ℤ) - h) ((i3 : ℤ) + h)
    [(⟨.impulse, .up, 0⟩,
      { impulse_wave_mk 0 i1 i2 i3 i4 i5 (prices.getD 0 0) (prices.getD i1 0)
          (prices.getD i2 0) (prices.getD i3 0) (prices.getD i4 0) (prices.getD i5 0) .up with
        confidence := some 0.9 })]
  else
    let i1 := min (n - 1) step
    let i3 := min (n - 1) (3 * step)
    let i5 := min (n - 1) (5 * step)
    let i2 := find_local_maximum prices ((i1 : ℤ) - h) ((i1 : ℤ) + h)
    let i4 := find_local_maximum prices ((i3 : ℤ) - h) ((i3 : ℤ) + h)
    [(⟨.impulse, .down, 0⟩,
      { impulse_wave_mk 0 i1 i2 i3 i4 i5 (prices.getD 0 0) (prices.getD i1 0)
          (prices.getD i2 0) (prices.getD i3 0) (prices.getD i4 0) (prices.getD i5 0) .down with
        confidence := some 0.9 })]

/-- Top-20 truncation by importance (source lines 218-226): np.argsort on the
importance values, reversed, first 20 indices kept.  numpy's default
argsort is unstable, so the order among equal importances is
implementation-defined; a stable descending sort is one admissible
realisation and ties never arise in the runs the theorems exercise. -/
def top_k_desc (importance : ℕ → ℚ) (k : ℕ) (l : List ℕ) : List ℕ :=
  (((l.map (fun i => (importance i, i))).insertionSort (fun a b => b.1 ≤ a.1)).take k).map
    Prod.snd

/-- Attach Fibonacci levels and the computed confidence to a verified impulse
entry (source lines 296-304). -/
def validate_impulse_entry (e : WaveKey × WaveData) : WaveKey × WaveData :=
  let w := e.2
  (e.1, { w with
    fib_levels := some (calculate_fibonacci_levels ((w.p0.getD ⟨0, 0⟩).price)
      ((w.p5.getD ⟨0, 0⟩).price) w.direction),
    confidence := some (calculate_wave_confidence w) })

/-- Attach Fibonacci levels and the computed confidence to a verified
corrective entry (source lines 311-319). -/
def validate_corrective_entry (e : WaveKey × WaveData) : WaveKey × WaveData :=
  let w := e.2
  (e.1, { w with
    fib_levels := some (calculate_fibonacci_levels ((w.p0.getD ⟨0, 0⟩).price)
      ((w.pC.getD ⟨0, 0⟩).price) w.direction),
    confidence := some (calculate_wave_confidence w) })

/-- The trailing confidence-defaulting loop (source lines 329-334): waves
without a confidence get 0.85 if their key contains "Impulse", else 0.75. -/
def default_confidence_fill (e : WaveKey × WaveData) : WaveKey × WaveData :=
  match e.2.confidence with
  | some _ => e
  | none => (e.1, { e.2 with confidence := some (if e.1.kind = .impulse then 0.85 else 0.75) })

/-- The verification pass of analyze_wave_structure (source lines 292-319):
candidates passing the Fibonacci check get levels and a computed
confidence, impulse candidates first. -/
def verified_waves (iw cw : WaveList) : WaveList :=
  (iw.filterMap (fun e =>
    if verify_impulse_wave_fibonacci e.2 then some (validate_impulse_entry e) else none)) ++
  (cw.filterMap (fun e =>
    if verify_corrective_wave_fibonacci e.2 then some (validate_corrective_entry e) else none))

/-- Source lines 322-326: use the verified waves, or all raw candidates when
nothing verified. -/
def combined_waves (iw cw : WaveList) : WaveList :=
  if (verified_waves iw cw).isEmpty then iw ++ cw else verified_waves iw cw

/-- The main path of analyze_wave_structure on the truncated pivot sets
(source lines 228-336): merge, alternation-filter, search, verify, and
default the confidences. -/
def main_wave_analysis (prices : List ℚ) (pk vl : List ℕ) : WaveList :=
  if (np_sort (pk ++ vl)).length < 6 then create_alternative_wave_structure prices
  else if (merged_alternation pk vl).length < 5 then create_alternative_wave_structure prices
  else
    (combined_waves
      (identify_impulse_waves prices ((merged_alternation pk vl).map Prod.fst)
        ((merged_alternation pk vl).map Prod.snd))
      (identify_corrective_waves prices ((merged_alternation pk vl).map Prod.fst)
        ((merged_alternation pk vl).map Prod.snd))).map default_confidence_fill

/-- analyze_wave_structure (source lines 194-336). -/
def analyze_wave_structure (prices : List ℚ) (peaks valleys : List ℕ) : WaveList :=
  if peaks.length < 3 ∨ valleys.length < 3 then create_alternative_wave_structure prices
  else
    main_wave_analysis prices
      (if 20 < peaks.length then top_k_desc (fun i => prices.getD i 0) 20 peaks else peaks)
      (if 20 < valleys.length then top_k_desc (fun i => -(prices.getD i 0)) 20 valleys
       else valleys)

inductive Status
  | completed
  | forming
deriving DecidableEq

inductive Lbl
  | unknown
  | w0
  | w01
  | w12
  | w1
  | w2
  | w3
  | w4
  | w5
  | wA
  | wB
  | wC
deriving DecidableEq

/-- The distinct position strings written by determine_current_wave, one
constructor per literal (in source order, lines 1005-1147). -/
inductive Pos
  | unknown
  | imp_up_done
  | imp_down_done
  | imp4_up
  | imp4_down
  | imp2_up
  | imp2_down
  | imp_start_up
  | imp_start_down
  | corr_done_up
  | corr_done_down
  | corrB_up
  | corrB_down
  | corrA_up
  | corrA_down
  | corr_start_up
  | corr_start_down
deriving DecidableEq

/-- Substring table: which position strings contain the rising-wave marker
used by generate_trading_signals (the buy-word marker occurs in no position
string, so the disjunction reduces to this table). -/
def Pos.mentions_rising_wave : Pos → Bool
  | .imp_down_done => false
  | .imp_start_down => false
  | .corr_start_down => false
  | .unknown => false
  | _ => true

/-- Substring table for the falling-wave marker (the sell-word marker occurs
in no position string). -/
def Pos.mentions_falling_wave : Pos → Bool
  | .imp_up_done => false
  | .imp_start_up => false
  | .corr_done_up => false
  | .corr_start_up => false
  | .unknown => false
  | _ => true

/-- Substring table for the upward-correction marker. -/
def Pos.mentions_upward_corr : Pos → Bool
  | .imp_down_done => true
  | _ => false

/-- Substring table for the downward-correction marker (it is a substring of
the new-downward-impulse phrase of the completed up-corrective position). -/
def Pos.mentions_downward_corr : Pos → Bool
  | .imp_up_done => true
  | .corr_done_up => true
  | _ => false

/-- The result dictionary of determine_current_wave with the defaults of
source lines 912-923.  wave_status is written only at initialisation: the
local variable of lines 980-984 is never copied back into the result, so
the field always holds the initial value. -/
structure CurrentWaveState where
  current_wave : Lbl := .unknown
  next_wave : Lbl := .unknown
  position : Pos := .unknown
  confidence : ℚ := 0.9
  wave_status : Status := .completed
  correction_phase : Bool := false
  trend_confirmed : Bool := false
  entry_signal : Bool := false
  correction_targets : List ℚ := []
  correction_progress : ℕ := 0
deriving DecidableEq

def default_current_wave : CurrentWaveState := {}

/-- wave_data.get("confidence", 0.5), source line 938. -/
def wave_confidence_of (w : WaveData) : ℚ := w.confidence.getD 0.5

/-- all(str(i) in wave_data for i in range(6)), source line 946. -/
def impulse_complete (w : WaveData) : Bool :=
  w.p0.isSome && w.p1.isSome && w.p2.isSome && w.p3.isSome && w.p4.isSome && w.p5.isSome

/-- all(k in wave_data for k in ["0","A","B","C"]), source line 962. -/
def corrective_complete (w : WaveData) : Bool :=
  w.p0.isSome && w.pA.isSome && w.pB.isSome && w.pC.isSome

/-- The highest present numeric leg (source line 954).  The source raises on
an impulse entry carrying no numeric leg at all; such entries are not
constructible by the pipeline, and theorems about arbitrary collections
assume at least leg availability for impulse entries. -/
def last_digit_point (w : WaveData) : Option WavePoint :=
  w.p5 <|> w.p4 <|> w.p3 <|> w.p2 <|> w.p1 <|> w.p0

/-- The last present leg in the fixed order 0, A, B, C (source lines
970-972). -/
def last_corr_point (w : WaveData) : Option WavePoint :=
  w.pC <|> w.pB <|> w.pA <|> w.p0

/-- The scan state of source lines 929-934: completed key / end index /
highest selected confidence, forming key / last known leg index. -/
structure SelState where
  ck : Option WaveKey := none
  cEnd : ℤ := -1
  hconf : ℚ := 0
  fk : Option WaveKey := none
  fEnd : ℤ := -1
deriving DecidableEq

/-- One iteration of the wave scan (source lines 936-976): a completed wave
replaces the pick only when its end index strictly increases the current
end index and its confidence is at least the highest selected so far. -/
def sel_step (s : SelState) (e : WaveKey × WaveData) : SelState :=
  let conf := wave_confidence_of e.2
  match e.1.kind with
  | .impulse =>
    if impulse_complete e.2 then
      match e.2.p5 with
      | some pt =>
        if s.cEnd < (pt.idx : ℤ) ∧ s.hconf ≤ conf then
          { s with ck := some e.1, cEnd := (pt.idx : ℤ), hconf := conf }
        else s
      | none => s
    else
      match last_digit_point e.2 with
      | some pt =>
        if s.fEnd < (pt.idx : ℤ) then { s with fk := some e.1, fEnd := (pt.idx : ℤ) } else s
      | none => s
  | .corrective =>
    if corrective_complete e.2 then
      match e.2.pC with
      | some pt =>
        if s.cEnd < (pt.idx : ℤ) ∧ s.hconf ≤ conf then
          { s with ck := some e.1, cEnd := (pt.idx : ℤ), hconf := conf }
        else s
      | none => s
    else
      match last_corr_point e.2 with
      | some pt =>
        if s.fEnd < (pt.idx : ℤ) then { s with fk := some e.1, fEnd := (pt.idx : ℤ) } else s
      | none => s

def select_state (waves : WaveList) : SelState := waves.foldl sel_step {}

/-- The end index of a completed wave entry, exactly as the scan classifies
completion: an impulse entry with all of legs 0..5 ends at leg 5, a
corrective entry with all of 0, A, B, C ends at leg C; anything else is
not completed. -/
def end_of (e : WaveKey × WaveData) : Option ℤ :=
  match e.1.kind with
  | .impulse =>
    if impulse_complete e.2 then e.2.p5.map (fun pt => (pt.idx : ℤ)) else none
  | .corrective =>
    if corrective_complete e.2 then e.2.pC.map (fun pt => (pt.idx : ℤ)) else none

/-- Source lines 978-986: prefer the forming wave when it exists and its last
index exceeds the completed end index minus 5. -/
def selected_key (waves : WaveList) : Option WaveKey :=
  let s := select_state waves
  if s.fk.isSome ∧ s.cEnd - 5 < s.fEnd then s.fk else s.ck

/-- Dictionary lookup by key. -/
def dict_get (waves : WaveList) (k : WaveKey) : Option WaveData :=
  (waves.find? (fun e => e.1 == k)).map Prod.snd

def selected_entry (waves : WaveList) : Option (WaveKey × WaveData) :=
  (selected_key waves).bind (fun k => (dict_get waves k).map (fun w => (k, w)))

/-- Retracement targets of a completed up impulse (source lines 1012-1020);
note the signed range. -/
def impulse_up_targets (w : WaveData) : List ℚ :=
  match w.p0, w.p5 with
  | some a, some f =>
    let r := f.price - a.price
    [f.price - r * 0.236, f.price - r * 0.382, f.price - r * 0.5,
     f.price - r * 0.618, f.price - r * 0.786]
  | _, _ => []

/-- Retracement targets of a completed down impulse (source lines 1031-1039);
here the source takes the absolute range. -/
def impulse_down_targets (w : WaveData) : List ℚ :=
  match w.p0, w.p5 with
  | some a, some f =>
    let r := |a.price - f.price|
    [f.price + r * 0.236, f.price + r * 0.382, f.price + r * 0.5,
     f.price + r * 0.618, f.price + r * 0.786]
  | _, _ => []

/-- The per-branch state table of determine_current_wave (source lines
998-1147), applied to the selected wave.  Unassigned fields keep the
defaults of the initial result dictionary. -/
def wave_branch (k : WaveKey) (w : WaveData) : CurrentWaveState :=
  match k.kind with
  | .impulse =>
    if w.p5.isSome then
      match w.direction with
      | .up =>
        { current_wave := .w5, next_wave := .wA, position := .imp_up_done,
          confidence := 0.95, correction_phase := true,
          correction_targets := impulse_up_targets w }
      | .down =>
        { current_wave := .w5, next_wave := .wA, position := .imp_down_done,
          confidence := 0.95, correction_phase := true,
          correction_targets := impulse_down_targets w }
    else if w.p4.isSome then
      match w.direction with
      | .up =>
        { current_wave := .w4, next_wave := .w5, position := .imp4_up, confidence := 1,
          trend_confirmed := true, entry_signal := true }
      | .down =>
        { current_wave := .w4, next_wave := .w5, position := .imp4_down, confidence := 1,
          trend_confirmed := true, entry_signal := true }
    else if w.p2.isSome then
      match w.direction with
      | .up =>
        { current_wave := .w2, next_wave := .w3, position := .imp2_up, confidence := 1,
          trend_confirmed := true, entry_signal := true }
      | .down =>
        { current_wave := .w2, next_wave := .w3, position := .imp2_down, confidence := 1,
          trend_confirmed := true, entry_signal := true }
    else
      { current_wave := .w01, next_wave := .w12, confidence := 0.7,
        position := (match w.direction with | .up => .imp_start_up | .down => .imp_start_down) }
  | .corrective =>
    if w.pC.isSome then
      match w.direction with
      | .up =>
        { current_wave := .wC, next_wave := .w1, position := .corr_done_up, confidence := 1,
          trend_confirmed := true, entry_signal := true }
      | .down =>
        { current_wave := .wC, next_wave := .w1, position := .corr_done_down, confidence := 1,
          trend_confirmed := true, entry_signal := true }
    else if w.pB.isSome then
      { current_wave := .wB, next_wave := .wC, confidence := 0.8, correction_phase := true,
        correction_progress := 67,
        position := (match w.direction with | .up => .corrB_up | .down => .corrB_down) }
    else if w.pA.isSome then
      { current_wave := .wA, next_wave := .wB, confidence := 0.7, correction_phase := true,
        correction_progress := 33,
        position := (match w.direction with | .up => .corrA_up | .down => .corrA_down) }
    else
      { current_wave := .w0, next_wave := .wA, confidence := 0.6, correction_phase := true,
        correction_progress := 0,
        position := (match w.direction with | .up => .corr_start_up | .down => .corr_start_down) }

/-- determine_current_wave (source lines 896-1149). -/
def determine_current_wave (waves : WaveList) : CurrentWaveState :=
  match selected_entry waves with
  | none => default_current_wave
  | some (k, w) => wave_branch k w

/-- The patterns dictionary of identify_wave_patterns has at most four fixed
keys; each field holds the last match found, as repeated dict assignment
would. -/
structure PatternsInfo where
  full_cycle : Option (WaveKey × WaveKey) := none
  triangle : Option WaveKey := none
  wedge : Option WaveKey := none
  rectangle : Option WaveKey := none
deriving DecidableEq

/-- Full 5-3 cycle test (source lines 1173-1175).  The source reads leg "5"
of the impulse and leg "0" of the corrective without a presence check and
would raise on a forming wave; the model skips such pairs. -/
def full_cycle_match (i c : WaveKey × WaveData) : Bool :=
  match i.2.p5, c.2.p0 with
  | some p5, some c0 => p5.idx == c0.idx && i.2.direction != c.2.direction
  | _, _ => false

/-- Triangle test (source lines 1189-1196); leg "0" is read unchecked in the
source, required here. -/
def triangle_match (w : WaveData) : Bool :=
  match w.p0, w.pA, w.pB, w.pC with
  | some w0, some wA, some wB, some wC =>
    decide (|wB.price - wA.price| < |wA.price - w0.price| ∧
            |wC.price - wB.price| < |wB.price - wA.price|)
  | _, _, _, _ => false

/-- Wedge test (source lines 1208-1219); slopes are price differences over
index differences, with the total-division convention for equal indices. -/
def wedge_match (w : WaveData) : Bool :=
  match w.p0, w.p1, w.p2, w.p3, w.p4, w.p5 with
  | some w0, some w1, some w2, some w3, some w4, some w5 =>
    let s1 := (w1.price - w0.price) / ((w1.idx : ℚ) - (w0.idx : ℚ))
    let s3 := (w3.price - w2.price) / ((w3.idx : ℚ) - (w2.idx : ℚ))
    let s5 := (w5.price - w4.price) / ((w5.idx : ℚ) - (w4.idx : ℚ))
    let d2 := (w2.price - w1.price) / ((w2.idx : ℚ) - (w1.idx : ℚ))
    let d4 := (w4.price - w3.price) / ((w4.idx : ℚ) - (w3.idx : ℚ))
    decide (|s3| < |s1| ∧ |s5| < |s3| ∧ |d4| < |d2|)
  | _, _, _, _, _, _ => false

/-- Rectangle test (source lines 1232-1235). -/
def rectangle_match (w : WaveData) : Bool :=
  match w.p0, w.pA, w.pB, w.pC with
  | some w0, some wA, some wB, some wC =>
    decide (|w0.price - wB.price| / w0.price < 0.05 ∧ |wA.price - wC.price| / wA.price < 0.05)
  | _, _, _, _ => false

/-- identify_wave_patterns (source lines 1151-1244). -/
def identify_wave_patterns (waves : WaveList) : PatternsInfo :=
  let impulses := waves.filter (fun e => e.1.kind == WKind.impulse)
  let correctives := waves.filter (fun e => e.1.kind == WKind.corrective)
  { full_cycle := impulses.foldl (fun acc i =>
      correctives.foldl (fun acc2 c => if full_cycle_match i c then some (i.1, c.1) else acc2)
        acc) none,
    triangle := correctives.foldl
      (fun acc c => if triangle_match c.2 then some c.1 else acc) none,
    wedge := impulses.foldl (fun acc i => if wedge_match i.2 then some i.1 else acc) none,
    rectangle := correctives.foldl
      (fun acc c => if rectangle_match c.2 then some c.1 else acc) none }

/-- The trend classification strings of generate_trading_signals. -/
inductive Trend
  | unknown
  | confirmed_up
  | confirmed_down
  | corr_up_wait
  | corr_down_wait
deriving DecidableEq

inductive Dir3
  | buy
  | sell
  | neutral
deriving DecidableEq

/-- The note strings appended by generate_trading_signals, abstracted to
tokens carrying the numeric payloads. -/
inductive Note
  | correction_phase_progress (progress : ℕ)
  | nearest_correction_target (price : ℚ) (level_index : ℕ)
  | wait_for_completion
  | buy_signal_confirmed
  | sell_signal_confirmed
  | market_in_correction
  | no_clear_signal
  | rsi_oversold
  | rsi_overbought
  | macd_positive_cross
  | macd_negative_cross
deriving DecidableEq

structure TradeSignal where
  direction : Dir3
  entry : ℚ
  stop_loss : ℚ
  take_profit : ℚ
  trend : Trend
  confidence : ℚ
  notes : List Note
deriving DecidableEq

/-- min(targets, key=lambda x: abs(x - cp)): the first minimiser wins. -/
def nearest_target (cp : ℚ) : List ℚ → ℚ
  | [] => 0
  | t :: ts => ts.foldl (fun b x => if |x - cp| < |b - cp| then x else b) t

/-- list.index: first position of a value. -/
def first_index_of (x : ℚ) : List ℚ → ℕ
  | [] => 0
  | y :: ys => if y = x then 0 else first_index_of x ys + 1

/-- Trend derivation of source lines 1277-1291, driven by the substring
tables (the buy/sell word markers occur in no position string, so their
disjuncts are identically false). -/
def trend_of (cw : CurrentWaveState) : Trend :=
  if cw.trend_confirmed then
    if cw.position.mentions_rising_wave then .confirmed_up
    else if cw.position.mentions_falling_wave then .confirmed_down
    else .unknown
  else if cw.correction_phase then
    if cw.position.mentions_rising_wave || cw.position.mentions_upward_corr then .corr_up_wait
    else if cw.position.mentions_falling_wave || cw.position.mentions_downward_corr then
      .corr_down_wait
    else .unknown
  else .unknown

/-- The correction-detail notes of source lines 1301-1307.  Every later
branch reassigns the notes variable, so these survive into the output only
in the confirmed-entry branch with unknown trend. -/
def correction_notes (cp : ℚ) (cw : CurrentWaveState) : List Note :=
  if cw.correction_phase then
    let base := [Note.correction_phase_progress cw.correction_progress]
    if cw.correction_targets.isEmpty then base
    else
      let nt := nearest_target cp cw.correction_targets
      base ++ [Note.nearest_correction_target nt (first_index_of nt cw.correction_targets),
               Note.wait_for_completion]
  else []

/-- Buy stop loss (source lines 1315-1321): 0.98 times the minimum over the
current price and leg "0" of every up corrective. -/
def buy_stop_loss (cp : ℚ) (waves : WaveList) : ℚ :=
  (waves.foldl (fun m e =>
    if e.1.kind == WKind.corrective && e.2.direction == Dir.up then
      match e.2.p0 with
      | some pt => min m pt.price
      | none => m
    else m) cp) * 0.98

/-- Buy take profit (source lines 1323-1333): the nearer of a 20 percent
projection and, for each up impulse with legs "3" and "1" present, the
1.618 projection of leg 1's size above the current price.  The source reads
leg "0" unchecked; entries without it are skipped. -/
def buy_take_profit (cp : ℚ) (waves : WaveList) : ℚ :=
  waves.foldl (fun t e =>
    if e.1.kind == WKind.impulse && e.2.direction == Dir.up && e.2.p3.isSome then
      match e.2.p0, e.2.p1 with
      | some a, some b => min t (cp + (b.price - a.price) * 1.618)
      | _, _ => t
    else t) (cp * 1.2)

/-- Sell stop loss (source lines 1339-1346). -/
def sell_stop_loss (cp : ℚ) (waves : WaveList) : ℚ :=
  (waves.foldl (fun m e =>
    if e.1.kind == WKind.corrective && e.2.direction == Dir.down then
      match e.2.p0 with
      | some pt => max m pt.price
      | none => m
    else m) cp) * 1.02

/-- Sell take profit (source lines 1348-1356). -/
def sell_take_profit (cp : ℚ) (waves : WaveList) : ℚ :=
  waves.foldl (fun t e =>
    if e.1.kind == WKind.impulse && e.2.direction == Dir.down && e.2.p3.isSome then
      match e.2.p0, e.2.p1 with
      | some a, some b => max t (cp - (a.price - b.price) * 1.618)
      | _, _ => t
    else t) (cp * 0.8)

/-- generate_trading_signals (source lines 1246-1410).  An empty wave
collection returns the empty dictionary, modelled as none.  The "error"
key test on the collection is vacuous for pipeline-produced collections.
The RSI / MACD columns are abstracted to their last values, which is all
the function reads. -/
def generate_trading_signals (closes : List ℚ) (rsi_last : Option ℚ)
    (macd_last : Option (ℚ × ℚ)) (waves : WaveList) (cw : CurrentWaveState) :
    Option TradeSignal :=
  if waves.isEmpty then none
  else
    let cp := closes.getLastD 0
    let trend := trend_of cw
    let notes0 := correction_notes cp cw
    let core : Dir3 × ℚ × ℚ × List Note :=
      if cw.trend_confirmed && cw.entry_signal then
        match trend with
        | .confirmed_up =>
          (.buy, buy_stop_loss cp waves, buy_take_profit cp waves, [.buy_signal_confirmed])
        | .confirmed_down =>
          (.sell, sell_stop_loss cp waves, sell_take_profit cp waves, [.sell_signal_confirmed])
        | _ => (.neutral, 0, 0, notes0)
      else if trend == Trend.corr_up_wait || trend == Trend.corr_down_wait then
        (.neutral, cp * 0.9, cp * 1.1, [.market_in_correction])
      else
        (.neutral, cp * 0.9, cp * 1.1, [.no_clear_signal])
    let d := core.1
    let sl := core.2.1
    let tp := core.2.2.1
    let nts := core.2.2.2
    let nts1 :=
      match rsi_last with
      | some r =>
        if d == Dir3.buy && r < 30 then nts ++ [Note.rsi_oversold]
        else if d == Dir3.sell && 70 < r then nts ++ [Note.rsi_overbought]
        else nts
      | none => nts
    let nts2 :=
      match macd_last with
      | some ms =>
        if d == Dir3.buy && ms.2 < ms.1 then nts1 ++ [Note.macd_positive_cross]
        else if d == Dir3.sell && ms.1 < ms.2 then nts1 ++ [Note.macd_negative_cross]
        else nts1
      | none => nts1
    some { direction := d, entry := cp, stop_loss := sl, take_profit := tp,
           trend := trend, confidence := cw.confidence, notes := nts2 }

/-- The slice of the input DataFrame the core reads: the Close column and the
last values of the optional RSI / MACD columns. -/
structure MarketData where
  close : List ℚ
  rsi_last : Option ℚ := none
  macd_last : Option (ℚ × ℚ) := none

/-- The top-level result: either the tagged insufficient-data error
dictionary, carrying nothing else, or the full result dictionary. -/
inductive AnalysisResult
  | insufficient_data
  | ok (waves : WaveList) (current_wave : CurrentWaveState) (patterns : PatternsInfo)
      (trading_signals : Option TradeSignal) (peaks_idx valleys_idx : List ℕ)
deriving DecidableEq

/-- identify_elliott_waves (source lines 7-53): None or fewer than 50 rows
returns the error dictionary before any further computation. -/
def identify_elliott_waves (data : Option MarketData) (sensitivity : ℚ)
    (raw_peaks raw_valleys : List ℕ) : AnalysisResult :=
  match data with
  | none => .insufficient_data
  | some d =>
    if d.close.length < 50 then .insufficient_data
    else
      let pv := find_pivot_points d.close sensitivity raw_peaks raw_valleys
      let waves := analyze_wave_structure d.close pv.1 pv.2
      let cw := determine_current_wave waves
      let patterns := identify_wave_patterns waves
      let ts := generate_trading_signals d.close d.rsi_last d.macd_last waves cw
      .ok waves cw patterns ts pv.1 pv.2

def AnalysisResult.waves_of : AnalysisResult → Option WaveList
  | .insufficient_data => none
  | .ok w _ _ _ _ _ => some w

/-- The crafted 6-pivot alternating series of the specification example:
valley 100, peak 110, valley 104, peak 130, valley 120, peak 140 at
indices 0..5. -/
def ex_prices6 : List ℚ := [100, 110, 104, 130, 120, 140]

/-- The same crafted pattern padded to 9 alternating pivots so that the
search loop examines the first window. -/
def ex_prices9 : List ℚ := [100, 110, 104, 130, 120, 140, 90, 150, 80]

def ex_types6 : List PivotKind := [.valley, .peak, .valley, .peak, .valley, .peak]

def ex_types9 : List PivotKind :=
  [.valley, .peak, .valley, .peak, .valley, .peak, .valley, .peak, .valley]

/-- 60 integer prices rising linearly by 1 per step: a strictly monotone
series with no interior reversals. -/
def ex_prices60 : List ℚ :=
  [100, 101, 102, 103, 104, 105, 106, 107, 108, 109,
   110, 111, 112, 113, 114, 115, 116, 117, 118, 119,
   120, 121, 122, 123, 124, 125, 126, 127, 128, 129,
   130, 131, 132, 133, 134, 135, 136, 137, 138, 139,
   140, 141, 142, 143, 144, 145, 146, 147, 148, 149,
   150, 151, 152, 153, 154, 155, 156, 157, 158, 159]

def ex_md60 : MarketData := { close := ex_prices60 }

/-- The crafted up impulse wave of the specification example. -/
def ex_impulse_wave : WaveData := impulse_wave_mk 0 1 2 3 4 5 100 110 104 130 120 140 .up

/-- A completed up impulse ending at index 10 with stored confidence 1. -/
def ex_waveA : WaveData :=
  { p0 := some ⟨0, 100⟩, p1 := some ⟨2, 110⟩, p2 := some ⟨4, 105⟩, p3 := some ⟨6, 130⟩,
    p4 := some ⟨8, 120⟩, p5 := some ⟨10, 140⟩, direction := .up, confidence := some 1 }

/-- A completed up impulse ending strictly later, at index 20, with strictly
lower stored confidence 0. -/
def ex_waveB : WaveData :=
  { p0 := some ⟨12, 100⟩, p1 := some ⟨14, 112⟩, p2 := some ⟨16, 106⟩, p3 := some ⟨18, 132⟩,
    p4 := some ⟨19, 122⟩, p5 := some ⟨20, 150⟩, direction := .up, confidence := some 0 }

def ex_waves9 : WaveList := [(⟨.impulse, .up, 0⟩, ex_waveA), (⟨.impulse, .up, 1⟩, ex_waveB)]

/-- The same two completed impulses carrying one common confidence value. -/
def ex_waveB1 : WaveData := { ex_waveB with confidence := some 1 }

def ex_waves9c : WaveList := [(⟨.impulse, .up, 0⟩, ex_waveA), (⟨.impulse, .up, 1⟩, ex_waveB1)]

/-- An up impulse with legs 0..4 present and leg 5 missing. -/
def ex_forming_wave : WaveData :=
  { p0 := some ⟨0, 100⟩, p1 := some ⟨2, 110⟩, p2 := some ⟨4, 105⟩, p3 := some ⟨6, 130⟩,
    p4 := some ⟨8, 120⟩, direction := .up }

def ex_waves7 : WaveList := [(⟨.impulse, .up, 0⟩, ex_forming_wave)]

/-- The single synthetic entry the alternative builder produces on the
two-point series [1, 2]. -/
def ex_alt_entry : WaveKey × WaveData :=
  (⟨.impulse, .up, 0⟩, { impulse_wave_mk 0 0 0 0 0 0 1 1 1 1 1 1 .up with confidence := some 0.9 })

/-- C1: for a missing input or a price series shorter than 50 points, the
top-level analysis returns the tagged insufficient-data error result, which
carries no waves, current-wave state, patterns, trading signal or pivot
indices, and the function is total so nothing escapes the boundary. -/
theorem C1_insufficient_data (data : Option MarketData) (sensitivity : ℚ)
    (raw_peaks raw_valleys : List ℕ)
    (h : data = none ∨ ∃ d, data = some d ∧ d.close.length < 50) :
    identify_elliott_waves data sensitivity raw_peaks raw_valleys =
      AnalysisResult.insufficient_data := by
  rcases h with h | ⟨d, rfl, hd⟩
  · rw [h]; rfl
  · simp [identify_elliott_waves, hd]

theorem C1_witness :
    identify_elliott_waves none 1 [] [] = AnalysisResult.insufficient_data ∧
    identify_elliott_waves (some { close := List.replicate 30 1 }) 1 [] [] =
      AnalysisResult.insufficient_data :=
  ⟨C1_insufficient_data none 1 [] [] (Or.inl rfl),
   C1_insufficient_data (some { close := List.replicate 30 1 }) 1 [] []
     (Or.inr ⟨_, rfl, by decide⟩)⟩

/-- C3: with all six legs present, the impulse Fibonacci validator accepts
exactly when the four rules hold; for direction up: leg 2 does not fall
below leg 0, leg 3's range is at least 90 percent of leg 1's range, leg 4
stays strictly above leg 1, and the leg1-to-leg2 retracement quotient lies
in [0.236, 0.886]; direction down is the price mirror.  Violating any one
rule yields rejection. -/
theorem C3_impulse_validator_iff (w : WaveData) (a b c d e f : WavePoint)
    (h0 : w.p0 = some a) (h1 : w.p1 = some b) (h2 : w.p2 = some c) (h3 : w.p3 = some d)
    (h4 : w.p4 = some e) (h5 : w.p5 = some f) :
    (w.direction = .up →
      (verify_impulse_wave_fibonacci w = true ↔
        (a.price ≤ c.price ∧ 0.9 * (b.price - a.price) ≤ d.price - c.price ∧
         b.price < e.price ∧ 0.236 ≤ (b.price - c.price) / (b.price - a.price) ∧
         (b.price - c.price) / (b.price - a.price) ≤ 0.886))) ∧
    (w.direction = .down →
      (verify_impulse_wave_fibonacci w = true ↔
        (c.price ≤ a.price ∧ 0.9 * (a.price - b.price) ≤ c.price - d.price ∧
         e.price < b.price ∧ 0.236 ≤ (c.price - b.price) / (a.price - b.price) ∧
         (c.price - b.price) / (a.price - b.price) ≤ 0.886))) := by
  constructor
  · intro hdir
    simp only [verify_impulse_wave_fibonacci, h0, h1, h2, h3, h4, h5, hdir]
    split_ifs with g1 g2 g3 g4
    · simp only [Bool.false_eq_true, false_iff]
      rintro ⟨hc, -⟩
      exact absurd hc (not_le.mpr g1)
    · simp only [Bool.false_eq_true, false_iff]
      rintro ⟨-, hc, -⟩
      exact absurd hc (not_le.mpr g2)
    · simp only [Bool.false_eq_true, false_iff]
      rintro ⟨-, -, hc, -⟩
      exact absurd hc (not_lt.mpr g3)
    · simp only [true_iff]
      exact ⟨not_lt.mp g1, not_lt.mp g2, not_le.mp g3, g4.1, g4.2⟩
    · simp only [Bool.false_eq_true, false_iff]
      rintro ⟨-, -, -, hc1, hc2⟩
      exact g4 ⟨hc1, hc2⟩
  · intro hdir
    simp only [verify_impulse_wave_fibonacci, h0, h1, h2, h3, h4, h5, hdir]
    split_ifs with g1 g2 g3 g4
    · simp only [Bool.false_eq_true, false_iff]
      rintro ⟨hc, -⟩
      exact absurd hc (not_le.mpr g1)
    · simp only [Bool.false_eq_true, false_iff]
      rintro ⟨-, hc, -⟩
      exact absurd hc (not_le.mpr g2)
    · simp only [Bool.false_eq_true, false_iff]
      rintro ⟨-, -, hc, -⟩
      exact absurd hc (not_lt.mpr g3)
    · simp only [true_iff]
      exact ⟨not_lt.mp g1, not_lt.mp g2, not_le.mp g3, g4.1, g4.2⟩
    · simp only [Bool.false_eq_true, false_iff]
      rintro ⟨-, -, -, hc1, hc2⟩
      exact g4 ⟨hc1, hc2⟩

theorem C3_witness :
    verify_impulse_wave_fibonacci ex_impulse_wave = true ↔
      ((100 : ℚ) ≤ 104 ∧ 0.9 * ((110 : ℚ) - 100) ≤ (130 : ℚ) - 104 ∧ (110 : ℚ) < 120 ∧
       0.236 ≤ ((110 : ℚ) - 104) / ((110 : ℚ) - 100) ∧
       ((110 : ℚ) - 104) / ((110 : ℚ) - 100) ≤ 0.886) :=
  (C3_impulse_validator_iff ex_impulse_wave ⟨0, 100⟩ ⟨1, 110⟩ ⟨2, 104⟩ ⟨3, 130⟩ ⟨4, 120⟩
    ⟨5, 140⟩ rfl rfl rfl rfl rfl rfl).1 rfl

/-- C7: whenever the wave scan selects an up impulse whose legs 0 through 4
are present and whose leg 5 is missing, the returned state reads current
wave 4, next wave 5, with trend confirmed and the entry signal set. -/
theorem C7_wave4_state (waves : WaveList) (k : WaveKey) (w : WaveData) (pt : WavePoint)
    (hsel : selected_entry waves = some (k, w)) (hkind : k.kind = .impulse)
    (hdir : w.direction = .up) (h5 : w.p5 = none) (h4 : w.p4 = some pt)
    (_h0 : w.p0.isSome = true) (_h1 : w.p1.isSome = true) (_h2 : w.p2.isSome = true)
    (_h3 : w.p3.isSome = true) :
    (determine_current_wave waves).current_wave = .w4 ∧
    (determine_current_wave waves).next_wave = .w5 ∧
    (determine_current_wave waves).trend_confirmed = true ∧
    (determine_current_wave waves).entry_signal = true := by
  have hdcw : determine_current_wave waves = wave_branch k w := by
    unfold determine_current_wave
    rw [hsel]
  rw [hdcw]
  unfold wave_branch
  rw [hkind, h5, h4, hdir]
  exact ⟨rfl, rfl, rfl, rfl⟩

theorem C7_witness :
    (determine_current_wave ex_waves7).current_wave = .w4 ∧
    (determine_current_wave ex_waves7).next_wave = .w5 ∧
    (determine_current_wave ex_waves7).trend_confirmed = true ∧
    (determine_current_wave ex_waves7).entry_signal = true :=
  C7_wave4_state ex_waves7 ⟨.impulse, .up, 0⟩ ex_forming_wave ⟨8, 120⟩ (by decide) rfl rfl rfl
    rfl rfl rfl rfl rfl

/-- C10 helper: every branch of the state table stores one of the fixed
confidence constants. -/
theorem wave_branch_confidence_mem (k : WaveKey) (w : WaveData) :
    (wave_branch k w).confidence ∈ [(0.6 : ℚ), 0.7, 0.8, 0.9, 0.95, 1.0] := by
  rcases k with ⟨kind, kd, n⟩
  unfold wave_branch
  cases kind <;> cases hd : w.direction <;> dsimp only <;> split_ifs <;>
    norm_num [List.mem_cons]

/-- C10: for every wave collection whose impulse entries carry at least one
numeric leg (the source raises otherwise), the state machine's confidence
is one of the fixed per-branch constants 0.6, 0.7, 0.8, 0.9, 0.95, 1.0 -
in particular always within [0.6, 1.0] - and is never read from the
selected wave's stored confidence field, whose value does not appear in
the table. -/
theorem C10_state_confidence_constants (waves : WaveList)
    (_hwf : ∀ e ∈ waves, e.1.kind = WKind.impulse → (last_digit_point e.2).isSome = true) :
    (determine_current_wave waves).confidence ∈ [(0.6 : ℚ), 0.7, 0.8, 0.9, 0.95, 1.0] := by
  unfold determine_current_wave
  cases hsel : selected_entry waves with
  | none => norm_num [default_current_wave, List.mem_cons]
  | some kw => exact wave_branch_confidence_mem kw.1 kw.2

theorem C10_witness :
    (determine_current_wave []).confidence ∈ [(0.6 : ℚ), 0.7, 0.8, 0.9, 0.95, 1.0] :=
  C10_state_confidence_constants [] (by simp)

/-- C8 helper: with an unconfirmed trend the derived trend classification is
never one of the confirmed values. -/
theorem trend_of_unconfirmed (cw : CurrentWaveState) (ht : cw.trend_confirmed = false) :
    trend_of cw = .corr_up_wait ∨ trend_of cw = .corr_down_wait ∨ trend_of cw = .unknown := by
  unfold trend_of
  rw [ht]
  simp only [Bool.false_eq_true, if_false]
  split_ifs <;> simp

/-- C8 (amended): for every nonempty wave collection and every state with
trend_confirmed false, the generator returns a Neutral signal with stop
loss 0.9 times the current price, take profit 1.1 times the current
price, and nonempty explanatory notes; an empty collection instead
returns the empty result. -/
theorem C8_neutral_signal_amended (closes : List ℚ) (rsi_last : Option ℚ)
    (macd_last : Option (ℚ × ℚ)) (waves : WaveList) (cw : CurrentWaveState)
    (hne : waves ≠ []) (ht : cw.trend_confirmed = false) :
    ∃ sig, generate_trading_signals closes rsi_last macd_last waves cw = some sig ∧
      sig.direction = .neutral ∧ sig.stop_loss = closes.getLastD 0 * 0.9 ∧
      sig.take_profit = closes.getLastD 0 * 1.1 ∧ sig.notes ≠ [] := by
  have hie : waves.isEmpty = false := by
    cases waves with
    | nil => exact absurd rfl hne
    | cons a l => rfl
  unfold generate_trading_signals
  rw [hie]
  simp only [Bool.false_eq_true, if_false, ht, Bool.false_and]
  rcases trend_of_unconfirmed cw ht with htr | htr | htr <;> rw [htr] <;>
    rcases rsi_last with _ | r <;> rcases macd_last with _ | ms <;>
    exact ⟨_, rfl, rfl, rfl, rfl, by simp⟩

/-- C8 counterexample: the default state has trend_confirmed false, yet on an
empty wave collection the generator returns the empty result - no Neutral
direction and no stop or target levels - contradicting the claim's
empty-collection clause. -/
theorem C8_counterexample :
    default_current_wave.trend_confirmed = false ∧
    generate_trading_signals [100] none none [] default_current_wave = none :=
  ⟨rfl, rfl⟩

theorem C8_witness :
    ∃ sig, generate_trading_signals [100] none none ex_waves7 default_current_wave = some sig ∧
      sig.direction = .neutral ∧ sig.stop_loss = ([100] : List ℚ).getLastD 0 * 0.9 ∧
      sig.take_profit = ([100] : List ℚ).getLastD 0 * 1.1 ∧ sig.notes ≠ [] :=
  C8_neutral_signal_amended [100] none none ex_waves7 default_current_wave
    (by simp [ex_waves7]) rfl


/-- The scan never decreases the recorded completed end index. -/
theorem sel_step_cEnd_le (s : SelState) (e : WaveKey × WaveData) :
    s.cEnd ≤ (sel_step s e).cEnd := by
  rcases e with ⟨⟨kind, kd, n⟩, w⟩
  cases kind <;> simp only [sel_step] <;> split_ifs with h1
  · cases h5 : w.p5 with
    | none => exact le_refl _
    | some pt =>
      simp only
      split_ifs with h2
      · exact le_of_lt h2.1
      · exact le_refl _
  · cases hl : last_digit_point w with
    | none => exact le_refl _
    | some pt =>
      simp only
      split_ifs <;> exact le_refl _
  · cases hC : w.pC with
    | none => exact le_refl _
    | some pt =>
      simp only
      split_ifs with h2
      · exact le_of_lt h2.1
      · exact le_refl _
  · cases hl : last_corr_point w with
    | none => exact le_refl _
    | some pt =>
      simp only
      split_ifs <;> exact le_refl _

/-- One scan step keeps the recorded highest confidence at or below the
common confidence of completed entries. -/
theorem sel_step_hconf_le (c : ℚ) (s : SelState) (e : WaveKey × WaveData)
    (hs : s.hconf ≤ c) (he : (end_of e).isSome = true → wave_confidence_of e.2 = c) :
    (sel_step s e).hconf ≤ c := by
  rcases e with ⟨⟨kind, kd, n⟩, w⟩
  cases kind <;> simp only [sel_step, end_of] at he ⊢ <;> split_ifs with h1
  · cases h5 : w.p5 with
    | none => exact hs
    | some pt =>
      simp only
      split_ifs with h2
      · have hcc : wave_confidence_of w = c := he (by simp [h1, h5])
        simp only [hcc]
        exact le_refl _
      · exact hs
  · cases hl : last_digit_point w with
    | none => exact hs
    | some pt =>
      simp only
      split_ifs <;> exact hs
  · cases hC : w.pC with
    | none => exact hs
    | some pt =>
      simp only
      split_ifs with h2
      · have hcc : wave_confidence_of w = c := he (by simp [h1, hC])
        simp only [hcc]
        exact le_refl _
      · exact hs
  · cases hl : last_corr_point w with
    | none => exact hs
    | some pt =>
      simp only
      split_ifs <;> exact hs

/-- After one step, a completed entry's end index is bounded by the recorded
end index. -/
theorem sel_step_end_le (c : ℚ) (s : SelState) (e : WaveKey × WaveData) (i : ℤ)
    (hs : s.hconf ≤ c) (hc : wave_confidence_of e.2 = c) (hend : end_of e = some i) :
    i ≤ (sel_step s e).cEnd := by
  rcases e with ⟨⟨kind, kd, n⟩, w⟩
  cases kind
  case impulse =>
    simp only [sel_step]
    simp [end_of] at hend
    obtain ⟨hcomp, pt, h5, hidx⟩ := hend
    rw [if_pos hcomp]
    simp only [h5]
    split_ifs with h2
    · exact le_of_eq hidx.symm
    · rcases not_and_or.mp h2 with h3 | h3
      · exact le_trans (le_of_eq hidx.symm) (not_lt.mp h3)
      · exact absurd (le_of_le_of_eq hs hc.symm) h3
  case corrective =>
    simp only [sel_step]
    simp [end_of] at hend
    obtain ⟨hcomp, pt, hC, hidx⟩ := hend
    rw [if_pos hcomp]
    simp only [hC]
    split_ifs with h2
    · exact le_of_eq hidx.symm
    · rcases not_and_or.mp h2 with h3 | h3
      · exact le_trans (le_of_eq hidx.symm) (not_lt.mp h3)
      · exact absurd (le_of_le_of_eq hs hc.symm) h3

/-- The scan never decreases the recorded end index along a fold. -/
theorem sel_foldl_cEnd_le (ws : WaveList) :
    ∀ s : SelState, s.cEnd ≤ (ws.foldl sel_step s).cEnd := by
  induction ws with
  | nil => intro s; exact le_refl _
  | cons e rest ih => intro s; exact le_trans (sel_step_cEnd_le s e) (ih (sel_step s e))

/-- C9 scan invariant: when every completed entry carries one common
confidence value bounding the running highest confidence, the final
recorded completed end index dominates every completed entry's end
index. -/
theorem sel_fold_end_le (c : ℚ) (ws : WaveList) : ∀ s : SelState, s.hconf ≤ c →
    (∀ e ∈ ws, (end_of e).isSome = true → wave_confidence_of e.2 = c) →
    ∀ e ∈ ws, ∀ i : ℤ, end_of e = some i → i ≤ (ws.foldl sel_step s).cEnd := by
  induction ws with
  | nil => intro s _ _ e he; exact absurd he (List.not_mem_nil e)
  | cons e0 rest ih =>
    intro s hs hall e he i hend
    rcases List.mem_cons.mp he with rfl | hmem
    · have h1 : i ≤ (sel_step s e).cEnd :=
        sel_step_end_le c s e i hs (hall e (List.mem_cons_self e rest) (by rw [hend]; rfl)) hend
      exact le_trans h1 (sel_foldl_cEnd_le rest (sel_step s e))
    · exact ih (sel_step s e0)
        (sel_step_hconf_le c s e0 hs (hall e0 (List.mem_cons_self e0 rest)))
        (fun x hx => hall x (List.mem_cons_of_mem e0 hx)) e hmem i hend

/-- C9 (amended): the completed-wave scan keeps a pick only replaced when a
wave's end index strictly exceeds the current pick's and its confidence is
at least the highest selected so far; so a strictly later completed wave
with lower stored confidence is skipped, and equal end indices never
re-break by confidence.  When all completed waves carry one common
nonnegative confidence the comparison is vacuous and the recorded end
index dominates every completed wave's end index. -/
theorem C9_selection_amended (waves : WaveList) (c : ℚ) (hc : 0 ≤ c)
    (hall : ∀ e ∈ waves, (end_of e).isSome = true → wave_confidence_of e.2 = c) :
    ∀ e ∈ waves, ∀ i : ℤ, end_of e = some i → i ≤ (select_state waves).cEnd :=
  sel_fold_end_le c waves {} hc hall

/-- C9 counterexample: two completed up impulses; the second ends strictly
later (index 20 versus 10) but carries lower stored confidence, and the
scan selects the first, so a strictly higher end index is not always
preferred. -/
theorem C9_counterexample :
    selected_entry ex_waves9 = some (⟨.impulse, .up, 0⟩, ex_waveA) ∧
    end_of (⟨.impulse, .up, 0⟩, ex_waveA) = some 10 ∧
    (⟨.impulse, .up, 1⟩, ex_waveB) ∈ ex_waves9 ∧
    end_of (⟨.impulse, .up, 1⟩, ex_waveB) = some 20 := by
  refine ⟨by decide, by decide, ?_, by decide⟩
  simp [ex_waves9]

theorem C9_witness :
    (10 : ℤ) ≤ (select_state ex_waves9c).cEnd :=
  C9_selection_amended ex_waves9c 1 (by norm_num) (by decide)
    (⟨.impulse, .up, 0⟩, ex_waveA) (by simp [ex_waves9c]) 10 (by decide)

/-- Discovered waves keep their payload and direction under numbering, at
some ordinal. -/
theorem number_waves_mem (kind : WKind) (d : Dir) (w : WaveData) :
    ∀ (l : List (Dir × WaveData)) (n : ℕ), (d, w) ∈ l →
      ∃ m : ℕ, (⟨kind, d, m⟩, w) ∈ number_waves kind n l := by
  intro l
  induction l with
  | nil => intro n h; exact absurd h (List.not_mem_nil _)
  | cons x rest ih =>
    intro n h
    rcases List.mem_cons.mp h with h | h
    · exact ⟨n, by rw [number_waves, ← h]; exact List.mem_cons_self _ _⟩
    · obtain ⟨m, hm⟩ := ih (n + 1) h
      exact ⟨m, by rw [number_waves]; exact List.mem_cons_of_mem _ hm⟩

/-- C2 (amended): the impulse search examines only the 6-pivot windows whose
start s satisfies both s + 8 < len(pivots) and s ≤ len(pivots) - lookback
with lookback = min(len(pivots), 10); for every examined window with kinds
valley-peak-valley-peak-valley-peak and the five impulse price rules, an
up ImpulseWave candidate with exactly those legs is emitted under some
discovery ordinal.  With fewer than 9 pivots no window at all is examined,
so a 6-pivot sequence can never produce a candidate. -/
theorem C2_impulse_window_amended (prices : List ℚ) (pivots : List ℕ)
    (types : List PivotKind) (s : ℕ)
    (hs1 : s + 8 < pivots.length) (hs2 : s ≤ pivots.length - min pivots.length 10)
    (ht0 : types.getD s .peak = .valley) (ht1 : types.getD (s+1) .valley = .peak)
    (ht2 : types.getD (s+2) .peak = .valley) (ht3 : types.getD (s+3) .valley = .peak)
    (ht4 : types.getD (s+4) .peak = .valley) (ht5 : types.getD (s+5) .valley = .peak)
    (hp1 : prices.getD (pivots.getD s 0) 0 < prices.getD (pivots.getD (s+1) 0) 0)
    (hp2 : prices.getD (pivots.getD (s+2) 0) 0 < prices.getD (pivots.getD (s+1) 0) 0)
    (hp3 : prices.getD (pivots.getD (s+1) 0) 0 < prices.getD (pivots.getD (s+3) 0) 0)
    (hp4 : prices.getD (pivots.getD (s+4) 0) 0 < prices.getD (pivots.getD (s+3) 0) 0)
    (hp5 : prices.getD (pivots.getD (s+2) 0) 0 < prices.getD (pivots.getD (s+4) 0) 0)
    (hp6 : prices.getD (pivots.getD (s+3) 0) 0 < prices.getD (pivots.getD (s+5) 0) 0) :
    ∃ m : ℕ,
      (⟨.impulse, .up, m⟩,
        impulse_wave_mk (pivots.getD s 0) (pivots.getD (s+1) 0) (pivots.getD (s+2) 0)
          (pivots.getD (s+3) 0) (pivots.getD (s+4) 0) (pivots.getD (s+5) 0)
          (prices.getD (pivots.getD s 0) 0) (prices.getD (pivots.getD (s+1) 0) 0)
          (prices.getD (pivots.getD (s+2) 0) 0) (prices.getD (pivots.getD (s+3) 0) 0)
          (prices.getD (pivots.getD (s+4) 0) 0) (prices.getD (pivots.getD (s+5) 0) 0) Dir.up)
        ∈ identify_impulse_waves prices pivots types := by
  have hwin : impulse_up_window prices pivots types s =
      some (impulse_wave_mk (pivots.getD s 0) (pivots.getD (s+1) 0) (pivots.getD (s+2) 0)
        (pivots.getD (s+3) 0) (pivots.getD (s+4) 0) (pivots.getD (s+5) 0)
        (prices.getD (pivots.getD s 0) 0) (prices.getD (pivots.getD (s+1) 0) 0)
        (prices.getD (pivots.getD (s+2) 0) 0) (prices.getD (pivots.getD (s+3) 0) 0)
        (prices.getD (pivots.getD (s+4) 0) 0) (prices.getD (pivots.getD (s+5) 0) 0) Dir.up) := by
    unfold impulse_up_window
    rw [if_pos ⟨ht0, ht1, ht2, ht3, ht4, ht5⟩]
    rw [if_pos ⟨hp1, hp2, hp3, hp4, hp5, hp6⟩]
  have hmem : (Dir.up,
      impulse_wave_mk (pivots.getD s 0) (pivots.getD (s+1) 0) (pivots.getD (s+2) 0)
        (pivots.getD (s+3) 0) (pivots.getD (s+4) 0) (pivots.getD (s+5) 0)
        (prices.getD (pivots.getD s 0) 0) (prices.getD (pivots.getD (s+1) 0) 0)
        (prices.getD (pivots.getD (s+2) 0) 0) (prices.getD (pivots.getD (s+3) 0) 0)
        (prices.getD (pivots.getD (s+4) 0) 0) (prices.getD (pivots.getD (s+5) 0) 0) Dir.up) ∈
      (List.range (pivots.length - min pivots.length 10 + 1)).filterMap (fun t =>
        if pivots.length ≤ t + 8 then none
        else (impulse_up_window prices pivots types t).map (fun w => (Dir.up, w))) := by
    apply List.mem_filterMap.mpr
    refine ⟨s, List.mem_range.mpr (Nat.lt_succ_of_le hs2), ?_⟩
    rw [if_neg (not_le.mpr hs1), hwin]
    rfl
  unfold identify_impulse_waves
  obtain ⟨m, hm⟩ := number_waves_mem .impulse Dir.up _ _ 0 (List.mem_append.mpr (Or.inl hmem))
  exact ⟨m, hm⟩

/-- C2 counterexample: the crafted 6-pivot alternating sequence of the
specification satisfies every kind and price rule of the up-impulse window
test at start 0, yet the impulse search emits no candidate at all, because
no window is examined when fewer than 9 pivots exist. -/
theorem C2_counterexample :
    (impulse_up_window ex_prices6 [0, 1, 2, 3, 4, 5] ex_types6 0).isSome = true ∧
    identify_impulse_waves ex_prices6 [0, 1, 2, 3, 4, 5] ex_types6 = [] := by
  exact ⟨by decide, by decide⟩

theorem C2_witness :
    ∃ m : ℕ,
      (⟨.impulse, .up, m⟩, impulse_wave_mk 0 1 2 3 4 5 100 110 104 130 120 140 Dir.up)
        ∈ identify_impulse_waves ex_prices9 [0, 1, 2, 3, 4, 5, 6, 7, 8] ex_types9 :=
  C2_impulse_window_amended ex_prices9 [0, 1, 2, 3, 4, 5, 6, 7, 8] ex_types9 0 (by decide)
    (by decide) (by decide) (by decide) (by decide) (by decide) (by decide) (by decide)
    (by decide) (by decide) (by decide) (by decide) (by decide) (by decide)

/-- The scorer's clamp keeps every computed confidence inside [0.5, 1]. -/
theorem calc_conf_bounds (w : WaveData) :
    0.5 ≤ calculate_wave_confidence w ∧ calculate_wave_confidence w ≤ 1 := by
  unfold calculate_wave_confidence
  constructor
  · exact le_max_left _ _
  · exact max_le (by norm_num) (min_le_left _ _)

/-- The alternative builder stamps confidence 0.9 on its synthetic wave. -/
theorem alt_structure_conf (prices : List ℚ) :
    ∀ e ∈ create_alternative_wave_structure prices, e.2.confidence = some 0.9 := by
  intro e he
  unfold create_alternative_wave_structure at he
  split_ifs at he <;> simp only [List.mem_singleton] at he <;> rw [he]

/-- Waves emitted by the up-impulse window test carry no confidence. -/
theorem impulse_up_window_conf (prices : List ℚ) (pivots : List ℕ) (types : List PivotKind)
    (s : ℕ) (w : WaveData) (h : impulse_up_window prices pivots types s = some w) :
    w.confidence = none := by
  unfold impulse_up_window at h
  split_ifs at h
  dsimp only at h
  split_ifs at h
  simp only [Option.some_inj] at h
  rw [← h]
  rfl

/-- Waves emitted by the down-impulse window test carry no confidence. -/
theorem impulse_down_window_conf (prices : List ℚ) (pivots : List ℕ) (types : List PivotKind)
    (s : ℕ) (w : WaveData) (h : impulse_down_window prices pivots types s = some w) :
    w.confidence = none := by
  unfold impulse_down_window at h
  split_ifs at h
  dsimp only at h
  split_ifs at h
  simp only [Option.some_inj] at h
  rw [← h]
  rfl

/-- Waves emitted by the down-corrective window test carry no confidence. -/
theorem corrective_down_window_conf (prices : List ℚ) (pivots : List ℕ)
    (types : List PivotKind) (s : ℕ) (w : WaveData)
    (h : corrective_down_window prices pivots types s = some w) : w.confidence = none := by
  unfold corrective_down_window at h
  split_ifs at h
  dsimp only at h
  split_ifs at h
  simp only [Option.some_inj] at h
  rw [← h]
  rfl

/-- Waves emitted by the up-corrective window test carry no confidence. -/
theorem corrective_up_window_conf (prices : List ℚ) (pivots : List ℕ)
    (types : List PivotKind) (s : ℕ) (w : WaveData)
    (h : corrective_up_window prices pivots types s = some w) : w.confidence = none := by
  unfold corrective_up_window at h
  split_ifs at h
  dsimp only at h
  split_ifs at h
  simp only [Option.some_inj] at h
  rw [← h]
  rfl

/-- Numbering preserves payloads: every numbered entry's wave occurs in the
discovery list. -/
theorem number_waves_mem_src (kind : WKind) :
    ∀ (l : List (Dir × WaveData)) (n : ℕ), ∀ e ∈ number_waves kind n l, ∃ d, (d, e.2) ∈ l := by
  intro l
  induction l with
  | nil => intro n e he; exact absurd he (by rw [number_waves]; exact List.not_mem_nil e)
  | cons x rest ih =>
    intro n e he
    rw [number_waves] at he
    rcases List.mem_cons.mp he with h | h
    · exact ⟨x.1, by rw [h]; exact List.mem_cons_self _ _⟩
    · obtain ⟨d, hd⟩ := ih (n + 1) e h
      exact ⟨d, List.mem_cons_of_mem _ hd⟩

/-- Every entry of the impulse search has no stored confidence. -/
theorem identify_impulse_conf_none (prices : List ℚ) (pivots : List ℕ)
    (types : List PivotKind) :
    ∀ e ∈ identify_impulse_waves prices pivots types, e.2.confidence = none := by
  intro e he
  unfold identify_impulse_waves at he
  obtain ⟨d, hd⟩ := number_waves_mem_src .impulse _ 0 e he
  rcases List.mem_append.mp hd with h | h <;> obtain ⟨s, _, hs⟩ := List.mem_filterMap.mp h <;>
    split_ifs at hs
  · obtain ⟨w, hw, hww⟩ := Option.map_eq_some'.mp hs
    have := impulse_up_window_conf prices pivots types s w hw
    rw [show e.2 = w from by rw [← Prod.mk.injEq d e.2 Dir.up w |>.mp hww.symm |>.2]]
    exact this
  · obtain ⟨w, hw, hww⟩ := Option.map_eq_some'.mp hs
    have := impulse_down_window_conf prices pivots types s w hw
    rw [show e.2 = w from by rw [← Prod.mk.injEq d e.2 Dir.down w |>.mp hww.symm |>.2]]
    exact this

/-- Every entry of the corrective search has no stored confidence. -/
theorem identify_corrective_conf_none (prices : List ℚ) (pivots : List ℕ)
    (types : List PivotKind) :
    ∀ e ∈ identify_corrective_waves prices pivots types, e.2.confidence = none := by
  intro e he
  unfold identify_corrective_waves at he
  obtain ⟨d, hd⟩ := number_waves_mem_src .corrective _ 0 e he
  rcases List.mem_append.mp hd with h | h <;> obtain ⟨s, _, hs⟩ := List.mem_filterMap.mp h <;>
    split_ifs at hs
  · obtain ⟨w, hw, hww⟩ := Option.map_eq_some'.mp hs
    have := corrective_down_window_conf prices pivots types s w hw
    rw [show e.2 = w from by rw [← Prod.mk.injEq d e.2 Dir.down w |>.mp hww.symm |>.2]]
    exact this
  · obtain ⟨w, hw, hww⟩ := Option.map_eq_some'.mp hs
    have := corrective_up_window_conf prices pivots types s w hw
    rw [show e.2 = w from by rw [← Prod.mk.injEq d e.2 Dir.up w |>.mp hww.symm |>.2]]
    exact this

/-- Every verified entry's confidence is a scorer output. -/
theorem verified_conf (iw cw : WaveList) :
    ∀ e ∈ verified_waves iw cw, ∃ w0, e.2.confidence = some (calculate_wave_confidence w0) := by
  intro e he
  unfold verified_waves at he
  rcases List.mem_append.mp he with h | h <;> obtain ⟨e1, _, hs⟩ := List.mem_filterMap.mp h <;>
    split_ifs at hs <;> simp only [Option.some_inj] at hs
  · exact ⟨e1.2, by rw [← hs]; rfl⟩
  · exact ⟨e1.2, by rw [← hs]; rfl⟩

/-- C5: every wave in the collection returned by the structure builder
carries a stored confidence lying inside [0, 1]; moreover the scorer's
output is clamped to [0.5, 1.0], so the clamped scores and the fixed
defaults 0.85, 0.75 and 0.9 all fall inside the unit interval. -/
theorem C5_confidence_bounds :
    (∀ (prices : List ℚ) (peaks valleys : List ℕ),
      ∀ e ∈ analyze_wave_structure prices peaks valleys,
        ∃ c, e.2.confidence = some c ∧ 0 ≤ c ∧ c ≤ 1) ∧
    (∀ w : WaveData,
      0.5 ≤ calculate_wave_confidence w ∧ calculate_wave_confidence w ≤ 1) := by
  constructor
  · intro prices peaks valleys e he
    have halt : ∀ x ∈ create_alternative_wave_structure prices,
        ∃ c, x.2.confidence = some c ∧ 0 ≤ c ∧ c ≤ 1 := by
      intro x hx
      exact ⟨0.9, alt_structure_conf prices x hx, by norm_num, by norm_num⟩
    unfold analyze_wave_structure main_wave_analysis at he
    split_ifs at he
    all_goals first
      | (obtain ⟨e0, he0, hfe⟩ := List.mem_map.mp he
         subst hfe
         unfold combined_waves at he0
         split_ifs at he0 with hv
         · rcases List.mem_append.mp he0 with h | h
           · have hn := identify_impulse_conf_none _ _ _ e0 h
             unfold default_confidence_fill
             rw [hn]
             refine ⟨_, rfl, ?_⟩
             split_ifs <;> norm_num
           · have hn := identify_corrective_conf_none _ _ _ e0 h
             unfold default_confidence_fill
             rw [hn]
             refine ⟨_, rfl, ?_⟩
             split_ifs <;> norm_num
         · obtain ⟨w0, hc⟩ := verified_conf _ _ e0 he0
           have hb := calc_conf_bounds w0
           refine ⟨calculate_wave_confidence w0, ?_, le_trans (by norm_num) hb.1, hb.2⟩
           unfold default_confidence_fill
           rw [hc]
           exact hc)
      | exact halt e he
  · exact calc_conf_bounds

theorem C5_witness :
    (∃ c, ex_alt_entry.2.confidence = some c ∧ 0 ≤ c ∧ c ≤ 1) ∧
    (0.5 ≤ calculate_wave_confidence ex_impulse_wave ∧
     calculate_wave_confidence ex_impulse_wave ≤ 1) :=
  ⟨C5_confidence_bounds.1 [1, 2] [] [] ex_alt_entry
    (by rw [show analyze_wave_structure [1, 2] [] [] = [ex_alt_entry] from rfl]
        exact List.mem_singleton.mpr rfl),
   C5_confidence_bounds.2 ex_impulse_wave⟩

/-- The alternation inner loop yields a sublist of its input. -/
theorem alt_filter_sublist (t : PivotKind) (l : List (ℕ × PivotKind)) :
    List.Sublist (alt_filter t l) l := by
  induction l generalizing t with
  | nil => simp [alt_filter]
  | cons x xs ih =>
    rw [alt_filter]
    split_ifs with hx
    · exact List.Sublist.cons x (ih t)
    · exact List.Sublist.cons₂ x (ih x.2)

/-- The alternation pass yields a sublist of its input. -/
theorem alternation_pass_sublist (l : List (ℕ × PivotKind)) :
    List.Sublist (alternation_pass l) l := by
  cases l with
  | nil => simp [alternation_pass]
  | cons x xs => exact List.Sublist.cons₂ x (alt_filter_sublist x.2 xs)

/-- The alternation inner loop produces alternating kinds, and its head kind
differs from the carried kind. -/
theorem alt_filter_spec (l : List (ℕ × PivotKind)) : ∀ t : PivotKind,
    (alt_filter t l).Chain' (fun a b => a.2 ≠ b.2) ∧
    ∀ x ∈ (alt_filter t l).head?, x.2 ≠ t := by
  induction l with
  | nil => intro t; simp [alt_filter]
  | cons x xs ih =>
    intro t
    rw [alt_filter]
    split_ifs with hx
    · exact ih t
    · refine ⟨List.chain'_cons'.mpr ⟨fun y hy => Ne.symm ((ih x.2).2 y hy), (ih x.2).1⟩, ?_⟩
      intro y hy
      simp only [List.head?_cons, Option.mem_def, Option.some_inj] at hy
      rw [hy] at hx
      exact hx

/-- The alternation pass produces alternating kinds. -/
theorem alternation_pass_chain (l : List (ℕ × PivotKind)) :
    (alternation_pass l).Chain' (fun a b => a.2 ≠ b.2) := by
  cases l with
  | nil => simp [alternation_pass]
  | cons x xs =>
    rw [alternation_pass]
    exact List.chain'_cons'.mpr
      ⟨fun y hy => Ne.symm ((alt_filter_spec xs x.2).2 y hy), (alt_filter_spec xs x.2).1⟩

/-- Elements of the merged alternation carry the kind assigned by membership
in the peak list. -/
theorem merged_alternation_tag (pk vl : List ℕ) :
    ∀ x ∈ merged_alternation pk vl, x.2 = pivot_tag pk x.1 := by
  intro x hx
  have hx0 : x ∈ (np_sort (pk ++ vl)).map (fun i => (i, pivot_tag pk i)) :=
    (alternation_pass_sublist _).subset hx
  obtain ⟨i, _, hi⟩ := List.mem_map.mp hx0
  rw [← hi]

/-- The merged alternation is sorted nondecreasingly by index. -/
theorem merged_alternation_le (pk vl : List ℕ) :
    (merged_alternation pk vl).Pairwise (fun a b => a.1 ≤ b.1) := by
  have hs : (np_sort (pk ++ vl)).Pairwise (· ≤ ·) := List.sorted_insertionSort _ _
  have hm : ((np_sort (pk ++ vl)).map (fun i => (i, pivot_tag pk i))).Pairwise
      (fun a b => a.1 ≤ b.1) := List.pairwise_map.mpr hs
  exact hm.sublist (alternation_pass_sublist _)

/-- The merged alternation is strictly sorted by index: adjacent entries have
distinct kinds, and a kind is a function of its index, so adjacent indices
differ. -/
theorem merged_alternation_lt (pk vl : List ℕ) :
    (merged_alternation pk vl).Pairwise (fun a b => a.1 < b.1) := by
  haveI : IsTrans (ℕ × PivotKind) (fun a b => a.1 < b.1) :=
    ⟨fun _ _ _ h1 h2 => lt_trans h1 h2⟩
  apply List.chain'_iff_pairwise.mp
  have hgen : ∀ m : List (ℕ × PivotKind),
      m.Chain' (fun a b => a.1 ≤ b.1) → m.Chain' (fun a b => a.2 ≠ b.2) →
      (∀ x ∈ m, x.2 = pivot_tag pk x.1) → m.Chain' (fun a b => a.1 < b.1) := by
    intro m
    induction m with
    | nil => intro _ _ _; simp
    | cons x xs ihm =>
      intro h1 h2 h3
      cases xs with
      | nil => simp
      | cons y ys =>
        rw [List.chain'_cons] at h1 h2 ⊢
        refine ⟨?_, ihm h1.2 h2.2 (fun z hz => h3 z (List.mem_cons_of_mem x hz))⟩
        rcases lt_or_eq_of_le h1.1 with h | h
        · exact h
        · exact absurd (by
            rw [h3 x (List.mem_cons_self x _),
              h3 y (List.mem_cons_of_mem x (List.mem_cons_self y _)), h]) h2.1
  exact hgen _ (merged_alternation_le pk vl).chain' (alternation_pass_chain _)
    (merged_alternation_tag pk vl)

/-- The projection pair of the merged alternation realises all invariants of
the claim: both sides are projections of one strictly index-sorted,
kind-alternating merged sequence, are strictly ascending, and share no
index. -/
theorem alternation_projections_spec (pk vl : List ℕ) :
    ∃ m : List (ℕ × PivotKind),
      (alternation_projections pk vl).1 =
        (m.filter (fun x => x.2 = PivotKind.peak)).map Prod.fst ∧
      (alternation_projections pk vl).2 =
        (m.filter (fun x => x.2 = PivotKind.valley)).map Prod.fst ∧
      m.Pairwise (fun a b => a.1 < b.1) ∧
      m.Chain' (fun a b => a.2 ≠ b.2) ∧
      (alternation_projections pk vl).1.Pairwise (· < ·) ∧
      (alternation_projections pk vl).2.Pairwise (· < ·) ∧
      ∀ i ∈ (alternation_projections pk vl).1, i ∉ (alternation_projections pk vl).2 := by
  refine ⟨merged_alternation pk vl, rfl, rfl, merged_alternation_lt pk vl,
    alternation_pass_chain _, ?_, ?_, ?_⟩
  · exact List.pairwise_map.mpr ((merged_alternation_lt pk vl).filter _)
  · exact List.pairwise_map.mpr ((merged_alternation_lt pk vl).filter _)
  · intro i hip hiv
    obtain ⟨x, hx, hxi⟩ := List.mem_map.mp hip
    obtain ⟨y, hy, hyi⟩ := List.mem_map.mp hiv
    have hxf := List.mem_filter.mp hx
    have hyf := List.mem_filter.mp hy
    have hxt := merged_alternation_tag pk vl x hxf.1
    have hyt := merged_alternation_tag pk vl y hyf.1
    have hxp : x.2 = PivotKind.peak := by simpa using hxf.2
    have hyv : y.2 = PivotKind.valley := by simpa using hyf.2
    rw [hxp, hxi] at hxt
    rw [hyv, hyi] at hyt
    rw [← hxt] at hyt
    exact PivotKind.noConfusion hyt

/-- A failed both-nonempty test means one side is empty. -/
theorem not_both_pos_cases {l1 l2 : List ℕ} (h : ¬ (0 < l1.length ∧ 0 < l2.length)) :
    l1 = [] ∨ l2 = [] := by
  rcases not_and_or.mp h with h | h
  · exact Or.inl (List.length_eq_zero.mp (Nat.eq_zero_of_not_pos h))
  · exact Or.inr (List.length_eq_zero.mp (Nat.eq_zero_of_not_pos h))

/-- The pre-fallback stage either returns the alternation projections of some
filtered peak and valley lists, or returns a pair with an empty side. -/
theorem pre_fallback_cases (prices : List ℚ) (sens : ℚ) (rp rv : List ℕ) :
    (∃ pk vl, pre_fallback prices sens rp rv = alternation_projections pk vl) ∨
    ((pre_fallback prices sens rp rv).1 = [] ∨ (pre_fallback prices sens rp rv).2 = []) := by
  unfold pre_fallback
  split_ifs with b1 b2 b3
  all_goals dsimp only
  all_goals split_ifs with hb
  all_goals first
    | exact Or.inl ⟨_, _, rfl⟩
    | exact Or.inr (not_both_pos_cases hb)

/-- C4 (amended): whenever the coarse segment fallback is not triggered (the
alternation output retains at least one peak and one valley), the returned
peak and valley index lists are the kind projections of one merged pivot
sequence that is strictly ascending by index and strictly alternating in
kind; both returned lists are strictly ascending and no index occurs in
both lists.  The coarse fallback path itself can violate disjointness and
alternation. -/
theorem C4_pivot_invariants_amended (prices : List ℚ) (sens : ℚ) (rp rv : List ℕ)
    (hnf : ¬ ((pre_fallback prices sens rp rv).1 = [] ∨
              (pre_fallback prices sens rp rv).2 = [])) :
    ∃ m : List (ℕ × PivotKind),
      (find_pivot_points prices sens rp rv).1 =
        (m.filter (fun x => x.2 = PivotKind.peak)).map Prod.fst ∧
      (find_pivot_points prices sens rp rv).2 =
        (m.filter (fun x => x.2 = PivotKind.valley)).map Prod.fst ∧
      m.Pairwise (fun a b => a.1 < b.1) ∧
      m.Chain' (fun a b => a.2 ≠ b.2) ∧
      (find_pivot_points prices sens rp rv).1.Pairwise (· < ·) ∧
      (find_pivot_points prices sens rp rv).2.Pairwise (· < ·) ∧
      ∀ i ∈ (find_pivot_points prices sens rp rv).1,
        i ∉ (find_pivot_points prices sens rp rv).2 := by
  have hfp : find_pivot_points prices sens rp rv = pre_fallback prices sens rp rv := by
    unfold find_pivot_points
    rw [if_neg hnf]
  rw [hfp]
  rcases pre_fallback_cases prices sens rp rv with ⟨pk, vl, heq⟩ | hbad
  · rw [heq]
    exact alternation_projections_spec pk vl
  · exact absurd hbad hnf

/-- C4 counterexample: on a constant 50-point series the external extrema
search finds nothing, the coarse segment fallback runs, and each segment's
first maximum and first minimum coincide, so the same index (for
instance 5) is returned both as a peak and as a valley, violating
disjointness and kind alternation. -/
theorem C4_counterexample :
    5 ∈ (find_pivot_points (List.replicate 50 (1 : ℚ)) (1/2) [] []).1 ∧
    5 ∈ (find_pivot_points (List.replicate 50 (1 : ℚ)) (1/2) [] []).2 := by
  decide

theorem C4_witness :
    ∃ m : List (ℕ × PivotKind),
      (find_pivot_points ex_prices6 (1/2) [3] [1]).1 =
        (m.filter (fun x => x.2 = PivotKind.peak)).map Prod.fst ∧
      (find_pivot_points ex_prices6 (1/2) [3] [1]).2 =
        (m.filter (fun x => x.2 = PivotKind.valley)).map Prod.fst ∧
      m.Pairwise (fun a b => a.1 < b.1) ∧
      m.Chain' (fun a b => a.2 ≠ b.2) ∧
      (find_pivot_points ex_prices6 (1/2) [3] [1]).1.Pairwise (· < ·) ∧
      (find_pivot_points ex_prices6 (1/2) [3] [1]).2.Pairwise (· < ·) ∧
      ∀ i ∈ (find_pivot_points ex_prices6 (1/2) [3] [1]).1,
        i ∉ (find_pivot_points ex_prices6 (1/2) [3] [1]).2 :=
  C4_pivot_invariants_amended ex_prices6 (1/2) [3] [1] (by decide)

/-- C6 counterexample: on 60 strictly rising prices with sensitivity 0.5 the
analysis returns a non-error result whose wave collection is empty - not a
single synthetic ImpulseWave - because the coarse pivot fallback yields 9
peaks and 9 valleys, so the alternative builder never runs and every
search window fails on a monotone series. -/
theorem C6_counterexample :
    (identify_elliott_waves (some ex_md60) (1/2) [] []).waves_of = some [] := by
  rfl

/-- C6 (amended): on a strictly monotone rising 60-point series the analysis
returns a non-error result, but it is produced by the normal pipeline, not
the alternative builder: the coarse fallback contributes one peak and one
valley per segment, the merged 18 pivots alternate, no impulse or
corrective window matches, and the result carries an empty wave
collection, the default current-wave state, no patterns and no trading
signal. -/
theorem C6_monotone_series_amended :
    identify_elliott_waves (some ex_md60) (1/2) [] [] =
      AnalysisResult.ok [] default_current_wave {} none
        [11, 17, 23, 29, 35, 41, 47, 53, 59] [6, 12, 18, 24, 30, 36, 42, 48, 54] := by
  rfl
